import Mathlib

/-! The polling and evaluation loop of go-server-checker.

A shallow embedding of `main.go`.  Go strings are modelled by the list of
their characters, Go's 64-bit `int` by `Int` with explicit wrap-around, a
run-time panic by `none`, and the network by the outcome of `http.Get`
passed in as an argument.  The one-second sleeps are not modelled.
-/

namespace GoServerChecker

/-! ## Machine integers -/

/-- Smallest value of Go's `int` on a 64-bit target. -/
def minInt : Int := -9223372036854775808

/-- Largest value of Go's `int` on a 64-bit target. -/
def maxInt : Int := 9223372036854775807

/-- Membership in the range of Go's 64-bit `int`. -/
def IsInt64 (x : Int) : Prop := minInt ≤ x ∧ x ≤ maxInt

instance (x : Int) : Decidable (IsInt64 x) := by
  unfold IsInt64; exact inferInstance

/-- Two's-complement wrap-around of an exact integer into the 64-bit range. -/
def wrap64 (x : Int) : Int :=
  (x + 9223372036854775808) % 18446744073709551616 - 9223372036854775808

/-- Go's `a + b` on `int`. -/
def goAdd (a b : Int) : Int := wrap64 (a + b)

/-- Go's `a - b` on `int`. -/
def goSub (a b : Int) : Int := wrap64 (a - b)

/-- Go's `a * b` on `int`. -/
def goMul (a b : Int) : Int := wrap64 (a * b)

/-- Go's `a / b` on `int`: the quotient truncated toward zero; dividing by
zero is a run-time panic, rendered as `none`. -/
def goQuo (a b : Int) : Option Int :=
  if b = 0 then none else some (wrap64 (Int.tdiv a b))

/-! ## Decimal formatting (`%d`) -/

/-- The text `%d` prints for a Go `int`: a minus sign for a negative value,
then the decimal digits without leading zeros. -/
def formatInt (x : Int) : List Char :=
  if x < 0 then '-' :: Nat.toDigits 10 x.natAbs else Nat.toDigits 10 x.natAbs

/-! ## `strings.TrimSpace` and `strings.Split` -/

/-- Go's `unicode.IsSpace`: the Latin-1 spaces and the other code points of
the Unicode White_Space property. -/
def isSpace (c : Char) : Bool :=
  let r := c.toNat
  r == 0x09 || r == 0x0A || r == 0x0B || r == 0x0C || r == 0x0D || r == 0x20
    || r == 0x85 || r == 0xA0 || r == 0x1680 || (0x2000 ≤ r && r ≤ 0x200A)
    || r == 0x2028 || r == 0x2029 || r == 0x202F || r == 0x205F || r == 0x3000

/-- Go's `strings.TrimSpace`: the string without its leading and trailing
white space. -/
def TrimSpace (s : List Char) : List Char :=
  ((s.dropWhile isSpace).reverse.dropWhile isSpace).reverse

/-- Go's `strings.Split(s, sep)` for a one-character separator: the pieces of
`s` between the occurrences of `sep`; a string without `sep`, the empty one
included, gives exactly one piece. -/
def Split (s : List Char) (sep : Char) : List (List Char) :=
  match s with
  | [] => [[]]
  | c :: cs =>
    if c = sep then [] :: Split cs sep
    else
      match Split cs sep with
      | [] => [[c]]
      | t :: ts => (c :: t) :: ts

/-! ## `strconv.Atoi` -/

/-- The two errors of package `strconv`: `ErrSyntax` and `ErrRange`. -/
inductive NumErrKind where
  | ErrSyntax
  | ErrRange
  deriving DecidableEq, Repr

/-- Go's `strconv.NumError`: the failing function, its input and the cause. -/
structure NumError where
  Func : List Char
  Num : List Char
  Err : NumErrKind
  deriving DecidableEq, Repr

/-- The digit loop of `strconv.ParseUint(s, 10, 64)`, with `n` the value read
so far: a character that is not a decimal digit is a syntax error, a value
that leaves the range of `uint64` a range error, whichever comes first. -/
def parseUintLoop (s : List Char) (n : Nat) : Except NumErrKind Nat :=
  match s with
  | [] => .ok n
  | c :: cs =>
    if 48 ≤ c.toNat ∧ c.toNat ≤ 57 then
      if n ≥ 18446744073709551615 / 10 + 1 then .error .ErrRange
      else
        let n1 := n * 10 + (c.toNat - 48)
        if n1 > 18446744073709551615 then .error .ErrRange
        else parseUintLoop cs n1
    else .error .ErrSyntax

/-- Go's `strconv.ParseUint(s, 10, 64)`: the empty string is a syntax error. -/
def ParseUint (s : List Char) : Except NumErrKind Nat :=
  match s with
  | [] => .error .ErrSyntax
  | _ :: _ => parseUintLoop s 0

/-- Go's `strconv.ParseInt(s, 10, 0)` on a 64-bit target: an optional sign,
then `ParseUint`; a magnitude outside the range of `int` is a range error. -/
def ParseInt (s : List Char) : Except NumErrKind Int :=
  match s with
  | [] => .error .ErrSyntax
  | c :: cs =>
    let neg := c = '-'
    let rest := if c = '+' ∨ c = '-' then cs else s
    match ParseUint rest with
    | .error .ErrSyntax => .error .ErrSyntax
    | .error .ErrRange => .error .ErrRange
    | .ok un =>
      if ¬ neg ∧ un ≥ 9223372036854775808 then .error .ErrRange
      else if neg ∧ un > 9223372036854775808 then .error .ErrRange
      else if neg then .ok (-(un : Int)) else .ok (un : Int)

/-- Go's `strconv.Atoi(s)`: `ParseInt(s, 10, 0)` with the error naming
`Atoi` and quoting the whole input. -/
def Atoi (s : List Char) : Except NumError Int :=
  match ParseInt s with
  | .ok n => .ok n
  | .error k => .error { Func := "Atoi".toList, Num := s, Err := k }

/-! ## Data model -/

/-- The seven statistics of `main.go`, in wire order. -/
structure ServerStats where
  LoadAverage : Int
  TotalMemory : Int
  UsedMemory : Int
  TotalDisk : Int
  UsedDisk : Int
  TotalNetwork : Int
  UsedNetwork : Int
  deriving DecidableEq, Repr

deriving instance DecidableEq for Except

/-- An HTTP response as `fetchServerStats` sees it: the status code and the
outcome of `io.ReadAll` on the body (the text, or the read error). -/
structure Response where
  StatusCode : Int
  Body : Except (List Char) (List Char)

/-- The five `return nil, fmt.Errorf(...)` sites of `fetchServerStats`, named
after the error kinds of the specification. -/
inductive FetchError where
  | Transport (err : List Char)
  | BadStatus (code : Int)
  | ReadError (err : List Char)
  | BadShape (got : Nat)
  | BadNumber (err : NumError)
  deriving DecidableEq, Repr

/-- The text of `strconv.ErrSyntax` and `strconv.ErrRange`. -/
def NumErrKind.Error : NumErrKind → List Char
  | .ErrSyntax => "invalid syntax".toList
  | .ErrRange => "value out of range".toList

/-- Go's `(*NumError).Error`; `Quote` stands for `strconv.Quote`. -/
def NumError.Error (Quote : List Char → List Char) (e : NumError) : List Char :=
  "strconv.".toList ++ e.Func ++ ": parsing ".toList ++ Quote e.Num ++ ": ".toList
    ++ e.Err.Error

/-- The message of a fetch error, as the `fmt.Errorf` calls build it. -/
def FetchError.Error (Quote : List Char → List Char) : FetchError → List Char
  | .Transport err => "failed to fetch server stats: ".toList ++ err
  | .BadStatus code => "unexpected status code: ".toList ++ formatInt code
  | .ReadError err => "failed to read response body: ".toList ++ err
  | .BadShape got => "invalid data length: expected 7, got ".toList ++ formatInt got
  | .BadNumber err => "invalid data format: ".toList ++ err.Error Quote

/-! ## Fetcher -/

/-- The loop `for i, value := range rawData` of `fetchServerStats`: the tokens
are converted in order and the first failure ends the loop. -/
def parseTokens : List (List Char) → Except NumError (List Int)
  | [] => .ok []
  | value :: rest =>
    match Atoi value with
    | .error err => .error err
    | .ok n =>
      match parseTokens rest with
      | .error err => .error err
      | .ok ns => .ok (n :: ns)

/-- The function `fetchServerStats` of `main.go`, applied to the outcome of
`http.Get(url)` (the transport error, or the response). -/
def fetchServerStats (get : Except (List Char) Response) : Except FetchError ServerStats :=
  match get with
  | .error err => .error (.Transport err)
  | .ok response =>
    if response.StatusCode ≠ 200 then .error (.BadStatus response.StatusCode)
    else
      match response.Body with
      | .error err => .error (.ReadError err)
      | .ok body =>
        let rawData := Split (TrimSpace body) ','
        if rawData.length ≠ 7 then .error (.BadShape rawData.length)
        else
          match parseTokens rawData with
          | .error err => .error (.BadNumber err)
          | .ok data =>
            .ok { LoadAverage := data.getD 0 0
                  TotalMemory := data.getD 1 0
                  UsedMemory := data.getD 2 0
                  TotalDisk := data.getD 3 0
                  UsedDisk := data.getD 4 0
                  TotalNetwork := data.getD 5 0
                  UsedNetwork := data.getD 6 0 }

/-- A response with status 200 whose body was read in full. -/
def ok200 (body : List Char) : Except (List Char) Response :=
  .ok { StatusCode := 200, Body := .ok body }

/-! ## Evaluator -/

/-- The line of rule 1. -/
def loadLine (v : Int) : List Char :=
  "Load Average is too high: ".toList ++ formatInt v

/-- The line of rule 2. -/
def memoryLine (v : Int) : List Char :=
  "Memory usage too high: ".toList ++ formatInt v ++ "%".toList

/-- The line of rule 3. -/
def diskLine (v : Int) : List Char :=
  "Free disk space is too low: ".toList ++ formatInt v ++ " Mb left".toList

/-- The line of rule 4. -/
def networkLine (v : Int) : List Char :=
  "Network bandwidth usage high: ".toList ++ formatInt v ++ " Mbit/s available".toList

/-- The function `checkServerStats` of `main.go`: the lines it prints, in
order, or `none` when it panics. -/
def checkServerStats (stats : ServerStats) : Option (List (List Char)) := do
  let load := if stats.LoadAverage > 30 then [loadLine stats.LoadAverage] else []
  let memory ←
    if stats.TotalMemory > 0 then do
      let memoryUsage ← goQuo (goMul stats.UsedMemory 100) stats.TotalMemory
      pure (if memoryUsage > 80 then [memoryLine memoryUsage] else [])
    else pure []
  let disk ←
    if stats.TotalDisk > 0 then do
      let freeDiskSpace := goSub stats.TotalDisk stats.UsedDisk
      let diskUsage ← goQuo (goMul stats.UsedDisk 100) stats.TotalDisk
      if diskUsage > 90 then do
        let mb ← goQuo freeDiskSpace (1024 * 1024)
        pure [diskLine mb]
      else pure []
    else pure []
  let network ←
    if stats.TotalNetwork > 0 then do
      let freeBandwidth := goSub stats.TotalNetwork stats.UsedNetwork
      let networkUsage ← goQuo (goMul stats.UsedNetwork 100) stats.TotalNetwork
      if networkUsage > 90 then do
        let mbit ← goQuo freeBandwidth 1000000
        pure [networkLine mbit]
      else pure []
    else pure []
  pure (load ++ memory ++ disk ++ network)

/-! ## Loop controller -/

/-- The degraded notice of `handleFailedAttempt`. -/
def degradedNotice : List Char :=
  "Unable to fetch server statistics after multiple attempts.".toList

/-- The state of the process between ticks: the global `failedAttempts` and
the lines written to standard output so far. -/
structure LoopState where
  failedAttempts : Int
  output : List (List Char)
  deriving DecidableEq, Repr

/-- The state in which `main` starts. -/
def LoopState.init : LoopState := { failedAttempts := 0, output := [] }

/-- The function `handleFailedAttempt` of `main.go`. -/
def handleFailedAttempt (st : LoopState) : LoopState :=
  let st1 := { st with failedAttempts := goAdd st.failedAttempts 1 }
  if st1.failedAttempts ≥ 3 then
    { failedAttempts := 0, output := st1.output ++ [degradedNotice] }
  else st1

/-- The line `main` prints for a failed fetch: `Error: ` and the message. -/
def errorLine (Quote : List Char → List Char) (err : FetchError) : List Char :=
  "Error: ".toList ++ err.Error Quote

/-- One iteration of the `for` loop of `main`, given the outcome of the
request; `none` when the iteration panics. -/
def tick (Quote : List Char → List Char) (st : LoopState)
    (get : Except (List Char) Response) : Option LoopState :=
  match fetchServerStats get with
  | .error err =>
    some (handleFailedAttempt
      { st with output := st.output ++ [errorLine Quote err] })
  | .ok stats =>
    match checkServerStats stats with
    | none => none
    | some lines => some { failedAttempts := 0, output := st.output ++ lines }

/-- The loop of `main` run over a finite sequence of request outcomes. -/
def run (Quote : List Char → List Char) (st : LoopState) :
    List (Except (List Char) Response) → Option LoopState
  | [] => some st
  | get :: rest =>
    match tick Quote st get with
    | none => none
    | some st1 => run Quote st1 rest


/-! ## The rule table of the specification -/

/-- Every field is a value of Go's 64-bit `int`. -/
def FitsInt64 (s : ServerStats) : Prop :=
  IsInt64 s.LoadAverage ∧ IsInt64 s.TotalMemory ∧ IsInt64 s.UsedMemory ∧
    IsInt64 s.TotalDisk ∧ IsInt64 s.UsedDisk ∧ IsInt64 s.TotalNetwork ∧ IsInt64 s.UsedNetwork

instance (s : ServerStats) : Decidable (FitsInt64 s) := by
  unfold FitsInt64; exact inferInstance

/-- For each resource that is reported (`Total > 0`) the exact product
`Used * 100` is a value of Go's 64-bit `int`. -/
def ProductsFit (s : ServerStats) : Prop :=
  (s.TotalMemory > 0 → IsInt64 (s.UsedMemory * 100)) ∧
    (s.TotalDisk > 0 → IsInt64 (s.UsedDisk * 100)) ∧
    (s.TotalNetwork > 0 → IsInt64 (s.UsedNetwork * 100))

instance (s : ServerStats) : Decidable (ProductsFit s) := by
  unfold ProductsFit; exact inferInstance

/-- Rule 1 of the specification fires. -/
def rule1Fires (s : ServerStats) : Bool :=
  decide (s.LoadAverage > 30)

/-- Rule 2 of the specification fires, in exact integer arithmetic. -/
def rule2Fires (s : ServerStats) : Bool :=
  decide (s.TotalMemory > 0 ∧ (s.UsedMemory * 100).tdiv s.TotalMemory > 80)

/-- Rule 3 of the specification fires, in exact integer arithmetic. -/
def rule3Fires (s : ServerStats) : Bool :=
  decide (s.TotalDisk > 0 ∧ (s.UsedDisk * 100).tdiv s.TotalDisk > 90)

/-- Rule 4 of the specification fires, in exact integer arithmetic. -/
def rule4Fires (s : ServerStats) : Bool :=
  decide (s.TotalNetwork > 0 ∧ (s.UsedNetwork * 100).tdiv s.TotalNetwork > 90)

/-- The reference list of the specification: the four rules tested in the
order 1 to 4, each contributing its line when it fires; the quotients are
exact and truncated toward zero. -/
def referenceLines (s : ServerStats) : List (List Char) :=
  (if rule1Fires s then [loadLine s.LoadAverage] else []) ++
  (if rule2Fires s then [memoryLine ((s.UsedMemory * 100).tdiv s.TotalMemory)] else []) ++
  (if rule3Fires s then [diskLine ((s.TotalDisk - s.UsedDisk).tdiv (1024 * 1024))] else []) ++
  (if rule4Fires s then [networkLine ((s.TotalNetwork - s.UsedNetwork).tdiv 1000000)] else [])

/-- A statistics record that fires exactly the rules selected by the four
flags. -/
def subsetStats (b1 b2 b3 b4 : Bool) : ServerStats :=
  { LoadAverage := if b1 then 31 else 0
    TotalMemory := 100
    UsedMemory := if b2 then 81 else 0
    TotalDisk := 100
    UsedDisk := if b3 then 91 else 0
    TotalNetwork := 100
    UsedNetwork := if b4 then 91 else 0 }

/-- A record whose memory product `UsedMemory * 100` leaves the 64-bit range. -/
def overflowStats : ServerStats :=
  { LoadAverage := 0
    TotalMemory := 4611686018427387904
    UsedMemory := 4611686018427387904
    TotalDisk := 0
    UsedDisk := 0
    TotalNetwork := 0
    UsedNetwork := 0 }

/-! ## The wire format of the specification -/

/-- A decimal digit, `0` to `9`. -/
def isDigit (c : Char) : Bool :=
  decide (48 ≤ c.toNat ∧ c.toNat ≤ 57)

/-- The number a string of decimal digits denotes, most significant digit
first. -/
def digitsValue (ds : List Char) : Nat :=
  ds.foldl (fun n c => n * 10 + (c.toNat - 48)) 0

/-- The token `tok` is the text of the base-10 signed integer `v`, and `v`
fits a 64-bit `int`: an optional sign `+` or `-`, then one or more decimal
digits. -/
def DenotesInt (tok : List Char) (v : Int) : Prop :=
  ∃ ds : List Char, ds ≠ [] ∧ (∀ c ∈ ds, isDigit c = true) ∧ IsInt64 v ∧
    ((tok = ds ∧ v = (digitsValue ds : Int)) ∨
      (tok = '+' :: ds ∧ v = (digitsValue ds : Int)) ∨
      (tok = '-' :: ds ∧ v = -(digitsValue ds : Int)))

/-- Go's `strings.Join(tokens, ",")`. -/
def joinComma : List (List Char) → List Char
  | [] => []
  | [t] => t
  | t :: u :: ts => t ++ ',' :: joinComma (u :: ts)

/-! ## Further notions of the specification -/

/-- The four white-space characters the wire format names: space, tab,
carriage return and line feed. -/
def isWireSpace (c : Char) : Bool :=
  c == ' ' || c == '\t' || c == '\r' || c == '\n'

/-- Seven tokens, each the text of a base-10 signed integer that fits a 64-bit
`int`: the tokens of a well-formed body. -/
def WellFormedTokens (toks : List (List Char)) : Prop :=
  toks.length = 7 ∧ ∀ t ∈ toks, ∃ v, DenotesInt t v

/-- What `checkServerStats` can reach while it runs: the record behind its
pointer argument, the global `failedAttempts` and standard output. -/
structure EvalState where
  stats : ServerStats
  failedAttempts : Int
  output : List (List Char)
  deriving DecidableEq, Repr

/-- One call of `fmt.Printf` with a text ending in a newline: the line is
added to standard output. -/
def Printf (line : List Char) (w : EvalState) : EvalState :=
  { w with output := w.output ++ [line] }

/-- The first `if` statement of `checkServerStats` (load average), as a
transformer of the state the function can reach. -/
def loadBlock (w : EvalState) : Option EvalState :=
  pure (if w.stats.LoadAverage > 30 then Printf (loadLine w.stats.LoadAverage) w else w)

/-- The second `if` statement of `checkServerStats` (memory); `none` when it
panics. -/
def memoryBlock (w : EvalState) : Option EvalState :=
  if w.stats.TotalMemory > 0 then do
    let memoryUsage ← goQuo (goMul w.stats.UsedMemory 100) w.stats.TotalMemory
    pure (if memoryUsage > 80 then Printf (memoryLine memoryUsage) w else w)
  else pure w

/-- The third `if` statement of `checkServerStats` (disk); `none` when it
panics. -/
def diskBlock (w : EvalState) : Option EvalState :=
  if w.stats.TotalDisk > 0 then do
    let freeDiskSpace := goSub w.stats.TotalDisk w.stats.UsedDisk
    let diskUsage ← goQuo (goMul w.stats.UsedDisk 100) w.stats.TotalDisk
    if diskUsage > 90 then do
      let mb ← goQuo freeDiskSpace (1024 * 1024)
      pure (Printf (diskLine mb) w)
    else pure w
  else pure w

/-- The fourth `if` statement of `checkServerStats` (network); `none` when it
panics. -/
def networkBlock (w : EvalState) : Option EvalState :=
  if w.stats.TotalNetwork > 0 then do
    let freeBandwidth := goSub w.stats.TotalNetwork w.stats.UsedNetwork
    let networkUsage ← goQuo (goMul w.stats.UsedNetwork 100) w.stats.TotalNetwork
    if networkUsage > 90 then do
      let mbit ← goQuo freeBandwidth 1000000
      pure (Printf (networkLine mbit) w)
    else pure w
  else pure w

/-- The function `checkServerStats` of `main.go` as a transformer of the state
it can reach: its four `if` statements in sequence; `none` when it panics. -/
def checkServerStatsOn (w0 : EvalState) : Option EvalState := do
  let w1 ← loadBlock w0
  let w2 ← memoryBlock w1
  let w3 ← diskBlock w2
  networkBlock w3

/-- The output the specification expects from consecutive failed ticks, the
first of which is failure number `i + 1` of the run: the `Error:` line of each
failure, followed by the degraded notice after every third one. -/
def failureOutput (Quote : List Char → List Char) : Nat → List FetchError → List (List Char)
  | _, [] => []
  | i, err :: rest =>
    (if (i + 1) % 3 = 0 then [errorLine Quote err, degradedNotice]
      else [errorLine Quote err]) ++ failureOutput Quote (i + 1) rest

/-- A record with `UsedDisk > TotalDisk > 0` whose product `UsedDisk * 100`
leaves the 64-bit range. -/
def overflowDiskStats : ServerStats :=
  { LoadAverage := 0
    TotalMemory := 0
    UsedMemory := 0
    TotalDisk := 1
    UsedDisk := 4611686018427387904
    TotalNetwork := 0
    UsedNetwork := 0 }

/-! ## Arithmetic facts -/

theorem wrap64_of_isInt64 {x : Int} (h : IsInt64 x) : wrap64 x = x := by
  unfold IsInt64 minInt maxInt at h
  unfold wrap64
  omega

theorem isInt64_wrap64 (x : Int) : IsInt64 (wrap64 x) := by
  unfold IsInt64 minInt maxInt wrap64
  omega

theorem tdiv_abs_le (a : Int) {b : Int} (hb : 0 < b) :
    (0 ≤ a → 0 ≤ a.tdiv b ∧ a.tdiv b ≤ a) ∧ (a ≤ 0 → a ≤ a.tdiv b ∧ a.tdiv b ≤ 0) := by
  constructor
  · intro ha
    rw [Int.tdiv_eq_ediv ha (le_of_lt hb)]
    exact ⟨Int.ediv_nonneg ha (le_of_lt hb), Int.ediv_le_self b ha⟩
  · intro ha
    have hna : 0 ≤ -a := by omega
    have h1 : a.tdiv b = -((-a) / b) := by
      have h2 := Int.neg_tdiv (-a) b
      rw [neg_neg] at h2
      rw [h2, Int.tdiv_eq_ediv hna (le_of_lt hb)]
    have h3 := Int.ediv_nonneg hna (le_of_lt hb)
    have h4 := Int.ediv_le_self b hna
    omega

theorem isInt64_tdiv {a b : Int} (ha : IsInt64 a) (hb : 0 < b) : IsInt64 (a.tdiv b) := by
  have h := tdiv_abs_le a hb
  unfold IsInt64 minInt maxInt at *
  rcases le_total 0 a with h0 | h0
  · have := h.1 h0; omega
  · have := h.2 h0; omega

theorem goQuo_pos (a : Int) {b : Int} (hb : 0 < b) :
    goQuo a b = some (wrap64 (a.tdiv b)) := by
  unfold goQuo
  rw [if_neg (by omega)]

/-- The evaluator, rule by rule: with the guards `Total > 0` in place no
division panics, and the output is the concatenation of the lines of the
four blocks, computed in 64-bit arithmetic. -/
theorem checkServerStats_eq (s : ServerStats) :
    checkServerStats s = some (
      (if s.LoadAverage > 30 then [loadLine s.LoadAverage] else []) ++
      (if s.TotalMemory > 0 ∧ wrap64 ((goMul s.UsedMemory 100).tdiv s.TotalMemory) > 80
        then [memoryLine (wrap64 ((goMul s.UsedMemory 100).tdiv s.TotalMemory))] else []) ++
      (if s.TotalDisk > 0 ∧ wrap64 ((goMul s.UsedDisk 100).tdiv s.TotalDisk) > 90
        then [diskLine (wrap64 ((goSub s.TotalDisk s.UsedDisk).tdiv 1048576))] else []) ++
      (if s.TotalNetwork > 0 ∧ wrap64 ((goMul s.UsedNetwork 100).tdiv s.TotalNetwork) > 90
        then [networkLine (wrap64 ((goSub s.TotalNetwork s.UsedNetwork).tdiv 1000000))]
        else [])) := by
  have e1 : (1024 : Int) * 1024 = 1048576 := by norm_num
  unfold checkServerStats
  simp only [e1]
  by_cases hm : s.TotalMemory > 0 <;> by_cases hd : s.TotalDisk > 0 <;>
    by_cases hn : s.TotalNetwork > 0 <;>
    simp only [hm, hd, hn, goQuo_pos, if_true, if_false, true_and, false_and,
      Option.pure_def, Option.bind_eq_bind, Option.some_bind] <;>
    split_ifs <;> simp [goQuo_pos]

theorem checkServerStats_exact (s : ServerStats) (hs : FitsInt64 s) (hp : ProductsFit s) :
    checkServerStats s = some (referenceLines s) := by
  obtain ⟨-, -, -, hTD, -, hTN, -⟩ := hs
  obtain ⟨pm, pd, pn⟩ := hp
  rw [checkServerStats_eq]
  unfold referenceLines rule1Fires rule2Fires rule3Fires rule4Fires
  have e1 : (1024 : Int) * 1024 = 1048576 := by norm_num
  simp only [e1, decide_eq_true_eq]
  have key : ∀ t u : Int, (t > 0 → IsInt64 (u * 100)) → t > 0 →
      wrap64 ((goMul u 100).tdiv t) = (u * 100).tdiv t := by
    intro t u h ht
    unfold goMul
    rw [wrap64_of_isInt64 (h ht), wrap64_of_isInt64 (isInt64_tdiv (h ht) ht)]
  have free : ∀ t u d : Int, IsInt64 t → (t > 0 → IsInt64 (u * 100)) → 0 < d →
      t > 0 ∧ (u * 100).tdiv t > 90 →
      wrap64 ((goSub t u).tdiv d) = (t - u).tdiv d := by
    intro t u d hT h hd ⟨ht, hq⟩
    have hu : 0 < u := by
      by_contra hneg
      have h2 := (tdiv_abs_le (u * 100) ht).2 (by omega)
      omega
    have hr : IsInt64 (t - u) := by
      have h3 := h ht
      unfold IsInt64 minInt maxInt at *
      omega
    unfold goSub
    rw [wrap64_of_isInt64 hr, wrap64_of_isInt64 (isInt64_tdiv hr hd)]
  congr 1
  congr 1
  congr 1
  · congr 1
    by_cases ht : s.TotalMemory > 0
    · rw [key _ _ pm ht]
    · simp [ht]
  · by_cases ht : s.TotalDisk > 0
    · rw [key _ _ pd ht]
      by_cases hq : (s.UsedDisk * 100).tdiv s.TotalDisk > 90
      · rw [free _ _ _ hTD pd (by norm_num) ⟨ht, hq⟩]
      · simp [hq]
    · simp [ht]
  · by_cases ht : s.TotalNetwork > 0
    · rw [key _ _ pn ht]
      by_cases hq : (s.UsedNetwork * 100).tdiv s.TotalNetwork > 90
      · rw [free _ _ _ hTN pn (by norm_num) ⟨ht, hq⟩]
      · simp [hq]
    · simp [ht]

/-- C2, as amended.  For every `ServerStats` with 64-bit fields for which the
products `Used * 100` of the reported resources fit in a 64-bit `int`, the
lines `checkServerStats` emits are the reference list of the specification
(rules 1 to 4 in order, exact truncated quotients); and each of the sixteen
subsets of rules is fired by such an input. -/
theorem checkServerStats_reference :
    (∀ s : ServerStats, FitsInt64 s → ProductsFit s →
      checkServerStats s = some (referenceLines s)) ∧
    (∀ b1 b2 b3 b4 : Bool, ∃ s : ServerStats, FitsInt64 s ∧ ProductsFit s ∧
      rule1Fires s = b1 ∧ rule2Fires s = b2 ∧ rule3Fires s = b3 ∧ rule4Fires s = b4 ∧
      checkServerStats s = some (referenceLines s)) := by
  refine ⟨checkServerStats_exact, ?_⟩
  intro b1 b2 b3 b4
  refine ⟨subsetStats b1 b2 b3 b4, ?_⟩
  cases b1 <;> cases b2 <;> cases b3 <;> cases b4 <;> decide

/-- Witness of C2: scenario F satisfies the hypotheses and fires all four rules. -/
theorem checkServerStats_reference_witness :
    FitsInt64 ⟨40, 100, 90, 100, 95, 1000000000, 999000000⟩ ∧
    ProductsFit ⟨40, 100, 90, 100, 95, 1000000000, 999000000⟩ ∧
    checkServerStats ⟨40, 100, 90, 100, 95, 1000000000, 999000000⟩
      = some (referenceLines ⟨40, 100, 90, 100, 95, 1000000000, 999000000⟩) :=
  ⟨by decide, by decide,
    checkServerStats_reference.1 ⟨40, 100, 90, 100, 95, 1000000000, 999000000⟩
      (by decide) (by decide)⟩

/-- Counterexample to C2 as stated: with `TotalMemory = UsedMemory = 2^62` the
exact quotient `UsedMemory*100/TotalMemory` is 100, so rule 2 of the reference
list fires, but the 64-bit product wraps to 0 and the code prints nothing. -/
theorem checkServerStats_reference_overflow :
    FitsInt64 overflowStats ∧
    checkServerStats overflowStats = some [] ∧
    referenceLines overflowStats = ["Memory usage too high: 100%".toList] ∧
    checkServerStats overflowStats ≠ some (referenceLines overflowStats) := by
  decide

/-! ## The first character of each kind of line -/

theorem loadLine_head (v : Int) : (loadLine v).head? = some 'L' := rfl

theorem memoryLine_head (v : Int) : (memoryLine v).head? = some 'M' := rfl

theorem diskLine_head (v : Int) : (diskLine v).head? = some 'F' := rfl

theorem networkLine_head (v : Int) : (networkLine v).head? = some 'N' := rfl

theorem errorLine_head (Quote : List Char → List Char) (err : FetchError) :
    (errorLine Quote err).head? = some 'E' := rfl

theorem degradedNotice_head : degradedNotice.head? = some 'U' := rfl

/-- Every line of the evaluator starts with the first letter of one of the
four alert texts. -/
theorem checkServerStats_heads {s : ServerStats} {lines : List (List Char)}
    (h : checkServerStats s = some lines) :
    ∀ l ∈ lines, l.head? = some 'L' ∨ l.head? = some 'M' ∨ l.head? = some 'F'
      ∨ l.head? = some 'N' := by
  rw [checkServerStats_eq] at h
  injection h with h
  subst h
  intro l hl
  simp only [List.mem_append] at hl
  rcases hl with ((hl | hl) | hl) | hl
  · split_ifs at hl <;> simp at hl
    subst hl; exact Or.inl (loadLine_head _)
  · split_ifs at hl <;> simp at hl
    subst hl; exact Or.inr (Or.inl (memoryLine_head _))
  · split_ifs at hl <;> simp at hl
    subst hl; exact Or.inr (Or.inr (Or.inl (diskLine_head _)))
  · split_ifs at hl <;> simp at hl
    subst hl; exact Or.inr (Or.inr (Or.inr (networkLine_head _)))

theorem degradedNotice_not_mem_lines {s : ServerStats} {lines : List (List Char)}
    (h : checkServerStats s = some lines) : degradedNotice ∉ lines := by
  intro hmem
  have := checkServerStats_heads h _ hmem
  rw [degradedNotice_head] at this
  revert this
  decide

theorem errorLine_ne_degradedNotice (Quote : List Char → List Char) (err : FetchError) :
    errorLine Quote err ≠ degradedNotice := by
  intro h
  have h2 := errorLine_head Quote err
  rw [h, degradedNotice_head] at h2
  revert h2
  decide

/-- C6.  `checkServerStats` never panics, and a resource whose total is zero
gets no line: for every `ServerStats` the result is a list of lines, without a
memory line when `TotalMemory = 0`, without a disk line when `TotalDisk = 0`
and without a network line when `TotalNetwork = 0`. -/
theorem checkServerStats_total (s : ServerStats) :
    ∃ lines, checkServerStats s = some lines ∧
      (s.TotalMemory = 0 → ∀ v, memoryLine v ∉ lines) ∧
      (s.TotalDisk = 0 → ∀ v, diskLine v ∉ lines) ∧
      (s.TotalNetwork = 0 → ∀ v, networkLine v ∉ lines) := by
  refine ⟨_, checkServerStats_eq s, ?_, ?_, ?_⟩
  · intro h0 v hmem
    simp only [h0, gt_iff_lt, lt_irrefl, false_and, if_false, List.append_nil,
      List.mem_append] at hmem
    have hM := memoryLine_head v
    rcases hmem with (hl | hl) | hl <;> split_ifs at hl <;> simp at hl <;>
      rw [hl] at hM
    · rw [loadLine_head] at hM; revert hM; decide
    · rw [diskLine_head] at hM; revert hM; decide
    · rw [networkLine_head] at hM; revert hM; decide
  · intro h0 v hmem
    simp only [h0, gt_iff_lt, lt_irrefl, false_and, if_false, List.append_nil,
      List.mem_append] at hmem
    have hM := diskLine_head v
    rcases hmem with (hl | hl) | hl <;> split_ifs at hl <;> simp at hl <;>
      rw [hl] at hM
    · rw [loadLine_head] at hM; revert hM; decide
    · rw [memoryLine_head] at hM; revert hM; decide
    · rw [networkLine_head] at hM; revert hM; decide
  · intro h0 v hmem
    simp only [h0, gt_iff_lt, lt_irrefl, false_and, if_false, List.append_nil,
      List.mem_append] at hmem
    have hM := networkLine_head v
    rcases hmem with (hl | hl) | hl <;> split_ifs at hl <;> simp at hl <;>
      rw [hl] at hM
    · rw [loadLine_head] at hM; revert hM; decide
    · rw [memoryLine_head] at hM; revert hM; decide
    · rw [diskLine_head] at hM; revert hM; decide

/-- Witness of C6: all three totals are zero, the used values are not. -/
theorem checkServerStats_total_witness :
    ∃ lines, checkServerStats ⟨31, 0, 5, 0, 5, 0, 5⟩ = some lines ∧
      ((0 : Int) = 0 → ∀ v, memoryLine v ∉ lines) ∧
      ((0 : Int) = 0 → ∀ v, diskLine v ∉ lines) ∧
      ((0 : Int) = 0 → ∀ v, networkLine v ∉ lines) :=
  checkServerStats_total ⟨31, 0, 5, 0, 5, 0, 5⟩

/-! ## The loop controller -/

theorem tick_failure (Quote : List Char → List Char) (st : LoopState)
    {get : Except (List Char) Response} {err : FetchError}
    (h : fetchServerStats get = .error err) :
    tick Quote st get = some (handleFailedAttempt
      { st with output := st.output ++ [errorLine Quote err] }) := by
  unfold tick
  rw [h]

theorem tick_success (Quote : List Char → List Char) (st : LoopState)
    {get : Except (List Char) Response} {stats : ServerStats}
    (h : fetchServerStats get = .ok stats) :
    ∃ lines, checkServerStats stats = some lines ∧ degradedNotice ∉ lines ∧
      tick Quote st get = some { failedAttempts := 0, output := st.output ++ lines } := by
  refine ⟨_, checkServerStats_eq stats, degradedNotice_not_mem_lines (checkServerStats_eq stats), ?_⟩
  unfold tick
  rw [h]
  simp only [checkServerStats_eq]

theorem handleFailedAttempt_lt (k : Int) (out : List (List Char)) (h0 : 0 ≤ k) (h2 : k < 2) :
    handleFailedAttempt ⟨k, out⟩ = ⟨k + 1, out⟩ := by
  have hw : wrap64 (k + 1) = k + 1 := by unfold wrap64; omega
  unfold handleFailedAttempt goAdd
  simp only [hw]
  rw [if_neg (by omega)]

theorem handleFailedAttempt_two (out : List (List Char)) :
    handleFailedAttempt ⟨2, out⟩ = ⟨0, out ++ [degradedNotice]⟩ := by
  have hw : wrap64 (2 + 1) = 3 := by decide
  unfold handleFailedAttempt goAdd
  simp only [hw]
  rw [if_pos (by decide)]

/-- One tick keeps the counter in `{0, 1, 2}` and never panics. -/
theorem tick_states (Quote : List Char → List Char) (st : LoopState)
    (get : Except (List Char) Response)
    (hst : st.failedAttempts = 0 ∨ st.failedAttempts = 1 ∨ st.failedAttempts = 2) :
    ∃ st1, tick Quote st get = some st1 ∧
      (st1.failedAttempts = 0 ∨ st1.failedAttempts = 1 ∨ st1.failedAttempts = 2) := by
  cases hf : fetchServerStats get with
  | error err =>
    refine ⟨_, tick_failure Quote st hf, ?_⟩
    rcases hst with h | h | h
    · rw [h, handleFailedAttempt_lt 0 _ (by decide) (by decide)]; simp
    · rw [h, handleFailedAttempt_lt 1 _ (by decide) (by decide)]; simp
    · rw [h, handleFailedAttempt_two]; simp
  | ok stats =>
    obtain ⟨lines, -, -, ht⟩ := tick_success Quote st hf
    exact ⟨_, ht, Or.inl rfl⟩

theorem run_states (Quote : List Char → List Char)
    (gets : List (Except (List Char) Response)) :
    ∀ st : LoopState,
      (st.failedAttempts = 0 ∨ st.failedAttempts = 1 ∨ st.failedAttempts = 2) →
      ∃ st1, run Quote st gets = some st1 ∧
        (st1.failedAttempts = 0 ∨ st1.failedAttempts = 1 ∨ st1.failedAttempts = 2) := by
  induction gets with
  | nil => intro st hst; exact ⟨st, rfl, hst⟩
  | cons get rest ih =>
    intro st hst
    obtain ⟨st1, h1, hs1⟩ := tick_states Quote st get hst
    obtain ⟨st2, h2, hs2⟩ := ih st1 hs1
    refine ⟨st2, ?_, hs2⟩
    simp only [run, h1, h2]

/-- C7.  Started with `failedAttempts = 0`, the loop run over any finite
sequence of request outcomes ends, and the counter is then 0, 1 or 2.  A failed
tick takes `k` to `k + 1` when `k` is 0 or 1 (printing only the `Error:` line)
and takes 2 to 0 (printing the `Error:` line, then the degraded notice); a
successful tick takes every `k` to 0. -/
theorem failedAttempts_states (Quote : List Char → List Char) :
    (∀ gets : List (Except (List Char) Response), ∃ st,
      run Quote LoopState.init gets = some st ∧
        (st.failedAttempts = 0 ∨ st.failedAttempts = 1 ∨ st.failedAttempts = 2)) ∧
    (∀ (k : Int) (out : List (List Char)) (get : Except (List Char) Response)
      (err : FetchError), 0 ≤ k → k < 2 → fetchServerStats get = .error err →
      tick Quote ⟨k, out⟩ get = some ⟨k + 1, out ++ [errorLine Quote err]⟩) ∧
    (∀ (out : List (List Char)) (get : Except (List Char) Response) (err : FetchError),
      fetchServerStats get = .error err →
      tick Quote ⟨2, out⟩ get
        = some ⟨0, out ++ [errorLine Quote err, degradedNotice]⟩) ∧
    (∀ (k : Int) (out : List (List Char)) (get : Except (List Char) Response)
      (stats : ServerStats), fetchServerStats get = .ok stats →
      ∃ lines, checkServerStats stats = some lines ∧
        tick Quote ⟨k, out⟩ get = some ⟨0, out ++ lines⟩) := by
  refine ⟨fun gets => run_states Quote gets _ (Or.inl rfl), ?_, ?_, ?_⟩
  · intro k out get err h0 h2 hf
    rw [tick_failure Quote _ hf]
    exact congrArg some (handleFailedAttempt_lt k _ h0 h2)
  · intro out get err hf
    rw [tick_failure Quote _ hf]
    simp only [handleFailedAttempt_two, List.append_assoc, List.singleton_append]
  · intro k out get stats hf
    obtain ⟨lines, hc, -, ht⟩ := tick_success Quote ⟨k, out⟩ hf
    exact ⟨lines, hc, ht⟩

/-- Witness of C7: a second failure (status 500) takes the counter from 1 to 2. -/
theorem failedAttempts_states_witness :
    (0 : Int) ≤ 1 ∧ (1 : Int) < 2 ∧
    fetchServerStats (.ok ⟨500, .ok []⟩) = .error (.BadStatus 500) ∧
    tick id ⟨1, []⟩ (.ok ⟨500, .ok []⟩)
      = some ⟨1 + 1, [] ++ [errorLine id (.BadStatus 500)]⟩ :=
  ⟨by decide, by decide, by decide,
    (failedAttempts_states id).2.1 1 [] (.ok ⟨500, .ok []⟩) (.BadStatus 500)
      (by decide) (by decide) (by decide)⟩

/-- C8.  Started with `failedAttempts = 0`, three consecutive failed ticks
print the three `Error:` lines and then the degraded notice, in that order:
no notice after one or two failures, exactly one after the third, and the
counter is 0 afterwards. -/
theorem three_failures (Quote : List Char → List Char)
    (g1 g2 g3 : Except (List Char) Response) (e1 e2 e3 : FetchError)
    (h1 : fetchServerStats g1 = .error e1) (h2 : fetchServerStats g2 = .error e2)
    (h3 : fetchServerStats g3 = .error e3) :
    run Quote LoopState.init [g1] = some ⟨1, [errorLine Quote e1]⟩ ∧
    run Quote LoopState.init [g1, g2]
      = some ⟨2, [errorLine Quote e1, errorLine Quote e2]⟩ ∧
    run Quote LoopState.init [g1, g2, g3]
      = some ⟨0, [errorLine Quote e1, errorLine Quote e2, errorLine Quote e3,
          degradedNotice]⟩ ∧
    List.count degradedNotice [errorLine Quote e1, errorLine Quote e2, errorLine Quote e3,
      degradedNotice] = 1 ∧
    degradedNotice ∉ [errorLine Quote e1, errorLine Quote e2, errorLine Quote e3] := by
  have t1 : tick Quote LoopState.init g1 = some ⟨1, [errorLine Quote e1]⟩ := by
    rw [tick_failure Quote _ h1]
    exact congrArg some (handleFailedAttempt_lt 0 _ (by decide) (by decide))
  have t2 : tick Quote ⟨1, [errorLine Quote e1]⟩ g2
      = some ⟨2, [errorLine Quote e1, errorLine Quote e2]⟩ := by
    rw [tick_failure Quote _ h2]
    exact congrArg some (handleFailedAttempt_lt 1 _ (by decide) (by decide))
  have t3 : tick Quote ⟨2, [errorLine Quote e1, errorLine Quote e2]⟩ g3
      = some ⟨0, [errorLine Quote e1, errorLine Quote e2, errorLine Quote e3,
          degradedNotice]⟩ := by
    rw [tick_failure Quote _ h3]
    exact congrArg some (handleFailedAttempt_two _)
  have n1 := (errorLine_ne_degradedNotice Quote e1)
  have n2 := (errorLine_ne_degradedNotice Quote e2)
  have n3 := (errorLine_ne_degradedNotice Quote e3)
  refine ⟨?_, ?_, ?_, ?_, ?_⟩
  · simp only [run, t1]
  · simp only [run, t1, t2]
  · simp only [run, t1, t2, t3]
  · simp [List.count_cons, n1, n2, n3]
  · simp [n1.symm, n2.symm, n3.symm]

/-- Witness of C8: the endpoint answers HTTP 500 three times. -/
theorem three_failures_witness :
    fetchServerStats (.ok ⟨500, .ok []⟩) = .error (.BadStatus 500) ∧
    run id LoopState.init [.ok ⟨500, .ok []⟩, .ok ⟨500, .ok []⟩, .ok ⟨500, .ok []⟩]
      = some ⟨0, ["Error: unexpected status code: 500".toList,
          "Error: unexpected status code: 500".toList,
          "Error: unexpected status code: 500".toList,
          "Unable to fetch server statistics after multiple attempts.".toList]⟩ :=
  ⟨by decide,
    (three_failures id (.ok ⟨500, .ok []⟩) (.ok ⟨500, .ok []⟩) (.ok ⟨500, .ok []⟩)
      (.BadStatus 500) (.BadStatus 500) (.BadStatus 500)
      (by decide) (by decide) (by decide)).2.2.1⟩

/-- C9.  A successful tick leaves `failedAttempts = 0` whatever it was before
and prints only the lines of the evaluator, none of which is the degraded
notice; a success after two consecutive failures from the start leaves the
counter at 0 with no degraded notice in the output of the three ticks. -/
theorem success_resets (Quote : List Char → List Char) :
    (∀ (k : Int) (out : List (List Char)) (get : Except (List Char) Response)
      (stats : ServerStats), fetchServerStats get = .ok stats →
      ∃ lines, checkServerStats stats = some lines ∧ degradedNotice ∉ lines ∧
        tick Quote ⟨k, out⟩ get = some ⟨0, out ++ lines⟩) ∧
    (∀ (g1 g2 g3 : Except (List Char) Response) (e1 e2 : FetchError)
      (stats : ServerStats), fetchServerStats g1 = .error e1 →
      fetchServerStats g2 = .error e2 → fetchServerStats g3 = .ok stats →
      ∃ st, run Quote LoopState.init [g1, g2, g3] = some st ∧
        st.failedAttempts = 0 ∧ degradedNotice ∉ st.output) := by
  constructor
  · intro k out get stats hf
    exact tick_success Quote ⟨k, out⟩ hf
  · intro g1 g2 g3 e1 e2 stats h1 h2 h3
    have t1 : tick Quote LoopState.init g1 = some ⟨1, [errorLine Quote e1]⟩ := by
      rw [tick_failure Quote _ h1]
      exact congrArg some (handleFailedAttempt_lt 0 _ (by decide) (by decide))
    have t2 : tick Quote ⟨1, [errorLine Quote e1]⟩ g2
        = some ⟨2, [errorLine Quote e1, errorLine Quote e2]⟩ := by
      rw [tick_failure Quote _ h2]
      exact congrArg some (handleFailedAttempt_lt 1 _ (by decide) (by decide))
    obtain ⟨lines, -, hn, t3⟩ :=
      tick_success Quote ⟨2, [errorLine Quote e1, errorLine Quote e2]⟩ h3
    refine ⟨⟨0, [errorLine Quote e1, errorLine Quote e2] ++ lines⟩, ?_, rfl, ?_⟩
    · simp only [run, t1, t2, t3]
    · have n1 := (errorLine_ne_degradedNotice Quote e1).symm
      have n2 := (errorLine_ne_degradedNotice Quote e2).symm
      simp [n1, n2, hn]

/-- Witness of C9: two HTTP 500 answers, then scenario A. -/
theorem success_resets_witness :
    fetchServerStats (ok200 "5,1000,500,1000,500,1000,500".toList)
      = .ok ⟨5, 1000, 500, 1000, 500, 1000, 500⟩ ∧
    ∃ st, run id LoopState.init
        [.ok ⟨500, .ok []⟩, .ok ⟨500, .ok []⟩, ok200 "5,1000,500,1000,500,1000,500".toList]
        = some st ∧ st.failedAttempts = 0 ∧ degradedNotice ∉ st.output :=
  ⟨by decide,
    (success_resets id).2 (.ok ⟨500, .ok []⟩) (.ok ⟨500, .ok []⟩)
      (ok200 "5,1000,500,1000,500,1000,500".toList) (.BadStatus 500) (.BadStatus 500)
      ⟨5, 1000, 500, 1000, 500, 1000, 500⟩ (by decide) (by decide) (by decide)⟩

/-! ## Decimal digits -/

theorem foldl_digits_append (l : List Char) (c : Char) (n : Nat) :
    (l ++ [c]).foldl (fun n c => n * 10 + (c.toNat - 48)) n
      = l.foldl (fun n c => n * 10 + (c.toNat - 48)) n * 10 + (c.toNat - 48) := by
  rw [List.foldl_append]
  rfl

theorem le_foldl_digits (l : List Char) :
    ∀ n : Nat, n ≤ l.foldl (fun n c => n * 10 + (c.toNat - 48)) n := by
  induction l with
  | nil => intro n; exact le_refl n
  | cons c cs ih =>
    intro n
    have h := ih (n * 10 + (c.toNat - 48))
    simp only [List.foldl_cons]
    omega

/-- On a string of digits the loop of `ParseUint` returns the number read,
unless that number leaves the range of `uint64`. -/
theorem parseUintLoop_digits (ds : List Char) :
    ∀ n : Nat, n ≤ 18446744073709551615 → (∀ c ∈ ds, isDigit c = true) →
      parseUintLoop ds n =
        if ds.foldl (fun n c => n * 10 + (c.toNat - 48)) n ≤ 18446744073709551615
        then .ok (ds.foldl (fun n c => n * 10 + (c.toNat - 48)) n)
        else .error .ErrRange := by
  induction ds with
  | nil =>
    intro n hn _
    simp only [parseUintLoop, List.foldl_nil]
    rw [if_pos hn]
  | cons c cs ih =>
    intro n _ hd
    have hc : 48 ≤ c.toNat ∧ c.toNat ≤ 57 := by
      have := hd c (List.mem_cons_self _ _)
      simpa [isDigit] using this
    have hcs : ∀ c ∈ cs, isDigit c = true := fun x hx => hd x (List.mem_cons_of_mem _ hx)
    have hmono := le_foldl_digits cs (n * 10 + (c.toNat - 48))
    simp only [List.foldl_cons]
    unfold parseUintLoop
    rw [if_pos hc]
    by_cases h1 : n ≥ 18446744073709551615 / 10 + 1
    · rw [if_pos h1, if_neg (by omega)]
    · rw [if_neg h1]
      simp only []
      by_cases h2 : n * 10 + (c.toNat - 48) > 18446744073709551615
      · rw [if_pos h2, if_neg (by omega)]
      · rw [if_neg h2]
        exact ih _ (by omega) hcs

/-- When the loop of `ParseUint` succeeds, the string holds digits only and
the result is the number read. -/
theorem parseUintLoop_ok (ds : List Char) :
    ∀ n v : Nat, parseUintLoop ds n = .ok v →
      (∀ c ∈ ds, isDigit c = true) ∧
        v = ds.foldl (fun n c => n * 10 + (c.toNat - 48)) n := by
  induction ds with
  | nil =>
    intro n v h
    simp only [parseUintLoop] at h
    injection h with h
    exact ⟨by simp, by simp [h]⟩
  | cons c cs ih =>
    intro n v h
    unfold parseUintLoop at h
    by_cases hc : 48 ≤ c.toNat ∧ c.toNat ≤ 57
    · rw [if_pos hc] at h
      by_cases h1 : n ≥ 18446744073709551615 / 10 + 1
      · rw [if_pos h1] at h; cases h
      · rw [if_neg h1] at h
        simp only [] at h
        by_cases h2 : n * 10 + (c.toNat - 48) > 18446744073709551615
        · rw [if_pos h2] at h; cases h
        · rw [if_neg h2] at h
          obtain ⟨hd, hv⟩ := ih _ _ h
          refine ⟨?_, by simpa using hv⟩
          intro x hx
          rcases List.mem_cons.1 hx with rfl | hx
          · simpa [isDigit] using hc
          · exact hd x hx
    · rw [if_neg hc] at h; cases h

theorem parseUint_digits {ds : List Char} (hne : ds ≠ []) (hd : ∀ c ∈ ds, isDigit c = true) :
    ParseUint ds =
      if digitsValue ds ≤ 18446744073709551615 then .ok (digitsValue ds)
      else .error .ErrRange := by
  cases ds with
  | nil => exact absurd rfl hne
  | cons c cs =>
    unfold ParseUint
    exact parseUintLoop_digits (c :: cs) 0 (by decide) hd

theorem parseUint_ok {s : List Char} {v : Nat} (h : ParseUint s = .ok v) :
    s ≠ [] ∧ (∀ c ∈ s, isDigit c = true) ∧ v = digitsValue s := by
  cases s with
  | nil => simp [ParseUint] at h
  | cons c cs =>
    unfold ParseUint at h
    obtain ⟨hd, hv⟩ := parseUintLoop_ok _ _ _ h
    exact ⟨by simp, hd, hv⟩

theorem isDigit_ne_sign {c : Char} (h : isDigit c = true) : c ≠ '+' ∧ c ≠ '-' := by
  constructor <;> (rintro rfl; revert h; decide)

/-- The refinement of `ParseInt`: it succeeds with `v` exactly on the texts
of the 64-bit integer `v`. -/
theorem parseInt_ok_iff (tok : List Char) (v : Int) :
    ParseInt tok = .ok v ↔ DenotesInt tok v := by
  constructor
  · intro h
    cases tok with
    | nil => simp [ParseInt] at h
    | cons c cs =>
      unfold ParseInt at h
      simp only [] at h
      split at h
      · cases h
      · cases h
      · rename_i un hu
        obtain ⟨hne, hd, hv⟩ := parseUint_ok hu
        by_cases hneg : c = '-'
        · subst hneg
          simp only [or_true, if_true, not_true_eq_false, false_and, if_false,
            true_and] at h hne hd hv
          split_ifs at h with h1
          injection h with h
          refine ⟨cs, hne, hd, ?_, Or.inr (Or.inr ⟨rfl, ?_⟩)⟩
          · unfold IsInt64 minInt maxInt; omega
          · rw [← h, hv]
        · by_cases hpos : c = '+'
          · subst hpos
            simp only [true_or, if_true, hneg, not_false_eq_true, true_and, false_and,
              if_false] at h hne hd hv
            split_ifs at h with h1
            injection h with h
            refine ⟨cs, hne, hd, ?_, Or.inr (Or.inl ⟨rfl, ?_⟩)⟩
            · unfold IsInt64 minInt maxInt; omega
            · rw [← h, hv]
          · simp only [hpos, hneg, or_self, if_false, not_false_eq_true, true_and,
              false_and] at h hne hd hv
            split_ifs at h with h1
            injection h with h
            refine ⟨c :: cs, hne, hd, ?_, Or.inl ⟨rfl, ?_⟩⟩
            · unfold IsInt64 minInt maxInt; omega
            · rw [← h, hv]
  · rintro ⟨ds, hne, hd, hr, h⟩
    unfold IsInt64 minInt maxInt at hr
    rcases h with ⟨rfl, hv⟩ | ⟨rfl, hv⟩ | ⟨rfl, hv⟩
    · cases tok with
      | nil => exact absurd rfl hne
      | cons c cs =>
        obtain ⟨hp, hm⟩ := isDigit_ne_sign (hd c (List.mem_cons_self _ _))
        unfold ParseInt
        simp only [hp, hm, or_self, if_false]
        rw [parseUint_digits hne hd, if_pos (by omega)]
        simp only [not_false_eq_true, true_and, false_and, if_false]
        rw [if_neg (by omega), hv]
    · unfold ParseInt
      simp only [true_or, if_true]
      rw [parseUint_digits hne hd, if_pos (by omega)]
      simp only [show ¬ ('+' = '-') by decide, not_false_eq_true, true_and, false_and,
        if_false]
      rw [if_neg (by omega), hv]
    · unfold ParseInt
      simp only [or_true, if_true]
      rw [parseUint_digits hne hd, if_pos (by omega)]
      simp only [not_true_eq_false, false_and, true_and, if_false, if_true]
      rw [if_neg (by omega), hv]

/-- The refinement of `Atoi`: it succeeds with `v` exactly on the texts of
the 64-bit integer `v`. -/
theorem atoi_ok_iff (tok : List Char) (v : Int) :
    Atoi tok = .ok v ↔ DenotesInt tok v := by
  rw [← parseInt_ok_iff]
  unfold Atoi
  cases ParseInt tok with
  | error k => simp
  | ok n => simp

theorem atoi_error {tok : List Char} {e : NumError} (h : Atoi tok = .error e) :
    e.Func = "Atoi".toList ∧ e.Num = tok ∧ ∀ v, ¬ DenotesInt tok v := by
  refine ⟨?_, ?_, ?_⟩
  · unfold Atoi at h
    cases hp : ParseInt tok with
    | error k => rw [hp] at h; injection h with h; rw [← h]
    | ok n => rw [hp] at h; cases h
  · unfold Atoi at h
    cases hp : ParseInt tok with
    | error k => rw [hp] at h; injection h with h; rw [← h]
    | ok n => rw [hp] at h; cases h
  · intro v hv
    rw [← atoi_ok_iff] at hv
    rw [hv] at h
    cases h

/-! ## Decimal formatting -/

theorem digitChar_toNat : ∀ d : Nat, d < 10 → (Nat.digitChar d).toNat = 48 + d := by
  decide

theorem toDigitsCore_eq (n : Nat) :
    ∀ fuel : Nat, n < fuel → ∀ acc : List Char,
      Nat.toDigitsCore 10 fuel n acc = Nat.toDigits 10 n ++ acc := by
  induction n using Nat.strong_induction_on with
  | _ n ih =>
    intro fuel hf acc
    cases fuel with
    | zero => omega
    | succ f =>
      unfold Nat.toDigits
      simp only [Nat.toDigitsCore]
      by_cases h0 : n / 10 = 0
      · simp [h0]
      · have hlt : n / 10 < n := by omega
        simp only [h0, if_false]
        rw [ih (n / 10) hlt f (by omega), ih (n / 10) hlt n hlt]
        simp

/-- The decimal digits of `n`: one digit below ten, otherwise the digits of
`n / 10` followed by the last digit. -/
theorem toDigits_step (n : Nat) :
    Nat.toDigits 10 n =
      if n < 10 then [Nat.digitChar n]
      else Nat.toDigits 10 (n / 10) ++ [Nat.digitChar (n % 10)] := by
  by_cases h : n < 10
  · rw [if_pos h]
    have h0 : n / 10 = 0 := by omega
    have hm : n % 10 = n := by omega
    simp [Nat.toDigits, Nat.toDigitsCore, h0, hm]
  · rw [if_neg h]
    have h0 : ¬ n / 10 = 0 := by omega
    have hlt : n / 10 < n := by omega
    conv_lhs => unfold Nat.toDigits
    simp only [Nat.toDigitsCore, h0, if_false]
    exact toDigitsCore_eq (n / 10) n hlt _

/-- The digits `%d` prints: a non-empty string of decimal digits whose value
is the number printed. -/
theorem toDigits_spec (n : Nat) :
    Nat.toDigits 10 n ≠ [] ∧ (∀ c ∈ Nat.toDigits 10 n, isDigit c = true) ∧
      digitsValue (Nat.toDigits 10 n) = n := by
  induction n using Nat.strong_induction_on with
  | _ n ih =>
    rw [toDigits_step]
    by_cases h : n < 10
    · rw [if_pos h]
      have hc := digitChar_toNat n h
      refine ⟨by simp, ?_, ?_⟩
      · intro c hcm
        rw [List.mem_singleton] at hcm
        subst hcm
        simp only [isDigit, hc, decide_eq_true_eq]
        omega
      · simp only [digitsValue, List.foldl_cons, List.foldl_nil, hc]
        omega
    · rw [if_neg h]
      obtain ⟨-, hd, hv⟩ := ih (n / 10) (by omega)
      have hc := digitChar_toNat (n % 10) (by omega)
      refine ⟨by simp, ?_, ?_⟩
      · intro c hcm
        rcases List.mem_append.1 hcm with hcm | hcm
        · exact hd c hcm
        · rw [List.mem_singleton] at hcm
          subst hcm
          simp only [isDigit, hc, decide_eq_true_eq]
          omega
      · unfold digitsValue at hv ⊢
        rw [foldl_digits_append, hv, hc]
        omega

/-- The text `%d` prints for a 64-bit integer denotes that integer. -/
theorem denotesInt_formatInt {x : Int} (hx : IsInt64 x) : DenotesInt (formatInt x) x := by
  obtain ⟨hne, hd, hv⟩ := toDigits_spec x.natAbs
  refine ⟨Nat.toDigits 10 x.natAbs, hne, hd, hx, ?_⟩
  unfold formatInt
  by_cases h : x < 0
  · rw [if_pos h]
    refine Or.inr (Or.inr ⟨rfl, ?_⟩)
    rw [hv]; omega
  · rw [if_neg h]
    refine Or.inl ⟨rfl, ?_⟩
    rw [hv]; omega

theorem atoi_formatInt {x : Int} (hx : IsInt64 x) : Atoi (formatInt x) = .ok x :=
  (atoi_ok_iff _ _).2 (denotesInt_formatInt hx)

/-- Every character `%d` prints is a minus sign or a decimal digit. -/
theorem formatInt_chars (x : Int) : ∀ c ∈ formatInt x, c = '-' ∨ isDigit c = true := by
  obtain ⟨-, hd, -⟩ := toDigits_spec x.natAbs
  intro c hc
  unfold formatInt at hc
  split_ifs at hc
  · rcases List.mem_cons.1 hc with h | h
    · exact Or.inl h
    · exact Or.inr (hd c h)
  · exact Or.inr (hd c hc)

/-! ## Splitting and trimming -/

theorem split_ne_nil (s : List Char) (sep : Char) : Split s sep ≠ [] := by
  cases s with
  | nil => simp [Split]
  | cons c cs =>
    unfold Split
    split_ifs
    · simp
    · split <;> simp

/-- A string without the separator is one piece. -/
theorem split_of_not_mem (sep : Char) (t : List Char) (h : sep ∉ t) :
    Split t sep = [t] := by
  induction t with
  | nil => simp [Split]
  | cons c cs ih =>
    have hc : c ≠ sep := fun e => h (e ▸ List.mem_cons_self _ _)
    have hcs : sep ∉ cs := fun e => h (List.mem_cons_of_mem _ e)
    unfold Split
    rw [if_neg hc, ih hcs]

/-- A piece without the separator, the separator, and a rest: the piece is
split off and the rest is split in turn. -/
theorem split_append_sep (sep : Char) (t rest : List Char) (h : sep ∉ t) :
    Split (t ++ sep :: rest) sep = t :: Split rest sep := by
  induction t with
  | nil =>
    simp only [List.nil_append]
    conv_lhs => unfold Split
    simp
  | cons c cs ih =>
    have hc : c ≠ sep := fun e => h (e ▸ List.mem_cons_self _ _)
    have hcs : sep ∉ cs := fun e => h (List.mem_cons_of_mem _ e)
    simp only [List.cons_append]
    conv_lhs => unfold Split
    rw [if_neg hc, ih hcs]

/-- Splitting undoes joining, for at least one token and tokens without a
comma. -/
theorem split_joinComma (t : List Char) (ts : List (List Char))
    (h : ∀ u ∈ t :: ts, ',' ∉ u) : Split (joinComma (t :: ts)) ',' = t :: ts := by
  induction ts generalizing t with
  | nil =>
    simp only [joinComma]
    exact split_of_not_mem _ _ (h t (List.mem_cons_self _ _))
  | cons u us ih =>
    simp only [joinComma]
    rw [split_append_sep _ _ _ (h t (List.mem_cons_self _ _)),
      ih u (fun w hw => h w (List.mem_cons_of_mem _ hw))]

theorem dropWhile_of_all_not (p : Char → Bool) (s : List Char)
    (h : ∀ c ∈ s, p c = false) : s.dropWhile p = s := by
  cases s with
  | nil => rfl
  | cons c cs => simp [List.dropWhile, h c (List.mem_cons_self _ _)]

/-- A string without white space is its own trimming. -/
theorem trimSpace_of_no_space (s : List Char) (h : ∀ c ∈ s, isSpace c = false) :
    TrimSpace s = s := by
  unfold TrimSpace
  rw [dropWhile_of_all_not _ _ h,
    dropWhile_of_all_not _ _ (fun c hc => h c (List.mem_reverse.1 hc)), List.reverse_reverse]

theorem mem_joinComma (ts : List (List Char)) :
    ∀ c ∈ joinComma ts, c = ',' ∨ ∃ t ∈ ts, c ∈ t := by
  induction ts with
  | nil => intro c hc; simp [joinComma] at hc
  | cons t us ih =>
    intro c hc
    cases us with
    | nil =>
      simp only [joinComma] at hc
      exact Or.inr ⟨t, List.mem_cons_self _ _, hc⟩
    | cons u us =>
      simp only [joinComma, List.mem_append, List.mem_cons] at hc
      rcases hc with hc | hc | hc
      · exact Or.inr ⟨t, List.mem_cons_self _ _, hc⟩
      · exact Or.inl hc
      · rcases ih c hc with h | ⟨w, hw, hcw⟩
        · exact Or.inl h
        · exact Or.inr ⟨w, List.mem_cons_of_mem _ hw, hcw⟩

theorem isDigit_not_space {c : Char} (h : isDigit c = true) :
    isSpace c = false ∧ c ≠ ',' := by
  simp only [isDigit, decide_eq_true_eq] at h
  constructor
  · simp only [isSpace, Bool.or_eq_false_iff, beq_eq_false_iff_ne, ne_eq,
      Bool.and_eq_false_imp, decide_eq_true_eq, decide_eq_false_iff_not]
    omega
  · rintro rfl
    revert h
    decide

/-! ## The fetcher -/

theorem parseTokens_ok (toks : List (List Char)) :
    ∀ vs : List Int, parseTokens toks = .ok vs →
      List.Forall₂ (fun t v => Atoi t = .ok v) toks vs := by
  induction toks with
  | nil =>
    intro vs h
    simp only [parseTokens] at h
    injection h with h
    subst h
    exact List.Forall₂.nil
  | cons t ts ih =>
    intro vs h
    unfold parseTokens at h
    cases ha : Atoi t with
    | error e => rw [ha] at h; cases h
    | ok n =>
      rw [ha] at h
      cases hp : parseTokens ts with
      | error e => rw [hp] at h; cases h
      | ok ns =>
        rw [hp] at h
        injection h with h
        subst h
        exact List.Forall₂.cons ha (ih ns hp)

theorem parseTokens_of_forall₂ {toks : List (List Char)} {vs : List Int}
    (h : List.Forall₂ (fun t v => Atoi t = .ok v) toks vs) : parseTokens toks = .ok vs := by
  induction h with
  | nil => rfl
  | cons ha _ ih => simp only [parseTokens, ha, ih]

/-- When the conversion loop fails, the error is the one `Atoi` gave for a
token of the list. -/
theorem parseTokens_error (toks : List (List Char)) :
    ∀ e : NumError, parseTokens toks = .error e → ∃ t ∈ toks, Atoi t = .error e := by
  induction toks with
  | nil => intro e h; simp [parseTokens] at h
  | cons t ts ih =>
    intro e h
    unfold parseTokens at h
    cases ha : Atoi t with
    | error e1 =>
      rw [ha] at h
      injection h with h
      subst h
      exact ⟨t, List.mem_cons_self _ _, ha⟩
    | ok n =>
      rw [ha] at h
      cases hp : parseTokens ts with
      | error e1 =>
        rw [hp] at h
        injection h with h
        subst h
        obtain ⟨u, hu, hau⟩ := ih _ hp
        exact ⟨u, List.mem_cons_of_mem _ hu, hau⟩
      | ok ns => rw [hp] at h; cases h

/-- A token that denotes no integer makes the conversion loop fail. -/
theorem parseTokens_of_bad (toks : List (List Char)) (t : List Char) (ht : t ∈ toks)
    (hbad : ∀ v, ¬ DenotesInt t v) : ∃ e, parseTokens toks = .error e := by
  cases hp : parseTokens toks with
  | error e => exact ⟨e, rfl⟩
  | ok vs =>
    exfalso
    have hf := parseTokens_ok toks vs hp
    clear hp
    induction hf with
    | nil => simp at ht
    | cons ha _ ih =>
      rcases List.mem_cons.1 ht with rfl | ht
      · exact hbad _ ((atoi_ok_iff _ _).1 ha)
      · exact ih ht

theorem fetchServerStats_ok200 (body : List Char) :
    fetchServerStats (ok200 body) =
      if (Split (TrimSpace body) ',').length ≠ 7
      then .error (.BadShape (Split (TrimSpace body) ',').length)
      else
        match parseTokens (Split (TrimSpace body) ',') with
        | .error err => .error (.BadNumber err)
        | .ok data =>
          .ok ⟨data.getD 0 0, data.getD 1 0, data.getD 2 0, data.getD 3 0, data.getD 4 0,
            data.getD 5 0, data.getD 6 0⟩ := by
  simp only [fetchServerStats, ok200, ne_eq, not_true_eq_false, if_false]

/-- Seven tokens that `Atoi` converts give the record of their values. -/
theorem fetchServerStats_of_tokens (body : List Char) (t0 t1 t2 t3 t4 t5 t6 : List Char)
    (a b c d e f g : Int) (hs : Split (TrimSpace body) ',' = [t0, t1, t2, t3, t4, t5, t6])
    (h0 : Atoi t0 = .ok a) (h1 : Atoi t1 = .ok b) (h2 : Atoi t2 = .ok c)
    (h3 : Atoi t3 = .ok d) (h4 : Atoi t4 = .ok e) (h5 : Atoi t5 = .ok f)
    (h6 : Atoi t6 = .ok g) :
    fetchServerStats (ok200 body) = .ok ⟨a, b, c, d, e, f, g⟩ := by
  rw [fetchServerStats_ok200, hs]
  simp [parseTokens, h0, h1, h2, h3, h4, h5, h6]

/-- C1.  For seven integers that fit a 64-bit `int`, a status-200 body made of
their decimal texts joined by commas is fetched without error as the record
with these seven values in order, negative ones included. -/
theorem fetchServerStats_wellformed (a b c d e f g : Int)
    (ha : IsInt64 a) (hb : IsInt64 b) (hc : IsInt64 c) (hd : IsInt64 d)
    (he : IsInt64 e) (hf : IsInt64 f) (hg : IsInt64 g) :
    fetchServerStats (ok200 (joinComma [formatInt a, formatInt b, formatInt c,
        formatInt d, formatInt e, formatInt f, formatInt g]))
      = .ok { LoadAverage := a, TotalMemory := b, UsedMemory := c, TotalDisk := d,
              UsedDisk := e, TotalNetwork := f, UsedNetwork := g } := by
  have hchars : ∀ t ∈ [formatInt a, formatInt b, formatInt c, formatInt d, formatInt e,
      formatInt f, formatInt g], ∀ ch ∈ t, ch = '-' ∨ isDigit ch = true := by
    intro t ht
    simp only [List.mem_cons, List.mem_singleton, List.not_mem_nil, or_false] at ht
    rcases ht with rfl | rfl | rfl | rfl | rfl | rfl | rfl <;> exact formatInt_chars _
  have hcomma : ∀ t ∈ [formatInt a, formatInt b, formatInt c, formatInt d, formatInt e,
      formatInt f, formatInt g], ',' ∉ t := by
    intro t ht hmem
    rcases hchars t ht _ hmem with h | h
    · revert h; decide
    · exact (isDigit_not_space h).2 rfl
  have htrim : TrimSpace (joinComma [formatInt a, formatInt b, formatInt c, formatInt d,
      formatInt e, formatInt f, formatInt g]) = joinComma [formatInt a, formatInt b,
      formatInt c, formatInt d, formatInt e, formatInt f, formatInt g] := by
    apply trimSpace_of_no_space
    intro ch hch
    rcases mem_joinComma _ ch hch with rfl | ⟨t, ht, hct⟩
    · decide
    · rcases hchars t ht ch hct with rfl | h
      · decide
      · exact (isDigit_not_space h).1
  apply fetchServerStats_of_tokens _ (formatInt a) (formatInt b) (formatInt c)
    (formatInt d) (formatInt e) (formatInt f) (formatInt g)
  · rw [htrim, split_joinComma _ _ hcomma]
  all_goals exact atoi_formatInt (by assumption)

/-- Witness of C1: the extreme values of `int`, zero and small values. -/
theorem fetchServerStats_wellformed_witness :
    joinComma [formatInt (-9223372036854775808), formatInt 9223372036854775807,
        formatInt 0, formatInt (-1), formatInt 5, formatInt 1000, formatInt 500]
      = "-9223372036854775808,9223372036854775807,0,-1,5,1000,500".toList ∧
    fetchServerStats (ok200 (joinComma [formatInt (-9223372036854775808),
        formatInt 9223372036854775807, formatInt 0, formatInt (-1), formatInt 5,
        formatInt 1000, formatInt 500]))
      = .ok ⟨-9223372036854775808, 9223372036854775807, 0, -1, 5, 1000, 500⟩ :=
  ⟨by decide,
    fetchServerStats_wellformed (-9223372036854775808) 9223372036854775807 0 (-1) 5 1000 500
      (by decide) (by decide) (by decide) (by decide) (by decide) (by decide) (by decide)⟩

/-- C3.  A status-200 body whose trimmed text splits on `,` into `n` tokens
with `n ≠ 7` gives no `ServerStats` but the BadShape error, whose message is
`invalid data length: expected 7, got n`; for the body `1,2,3` the message
says `expected 7, got 3`. -/
theorem fetchServerStats_badShape :
    (∀ body : List Char, (Split (TrimSpace body) ',').length ≠ 7 →
      fetchServerStats (ok200 body)
        = .error (.BadShape (Split (TrimSpace body) ',').length) ∧
      ∀ Quote : List Char → List Char,
        (FetchError.BadShape (Split (TrimSpace body) ',').length).Error Quote
          = "invalid data length: expected 7, got ".toList
            ++ formatInt (Split (TrimSpace body) ',').length) ∧
    (fetchServerStats (ok200 "1,2,3".toList) = .error (.BadShape 3) ∧
      ∀ Quote : List Char → List Char,
        (FetchError.BadShape 3).Error Quote
          = "invalid data length: expected 7, got 3".toList) := by
  refine ⟨?_, by decide, fun _ => rfl⟩
  intro body hn
  refine ⟨?_, fun _ => rfl⟩
  rw [fetchServerStats_ok200, if_pos hn]

/-- Witness of C3: the body `1,2,3,4,5,6,7,8` has eight tokens. -/
theorem fetchServerStats_badShape_witness :
    (Split (TrimSpace "1,2,3,4,5,6,7,8".toList) ',').length ≠ 7 ∧
    fetchServerStats (ok200 "1,2,3,4,5,6,7,8".toList)
      = .error (.BadShape (Split (TrimSpace "1,2,3,4,5,6,7,8".toList) ',').length) :=
  ⟨by decide, (fetchServerStats_badShape.1 "1,2,3,4,5,6,7,8".toList (by decide)).1⟩

/-- C4.  A `ServerStats` is returned only when all seven tokens parsed.  A
status-200 body with exactly seven tokens, one of which is not the text of a
64-bit base-10 signed integer, gives the BadNumber error, raised by `Atoi` on
such a token, with a message starting `invalid data format: `; the body
`a,b,c,d,e,f,g` is one.  Conversely, whenever a `ServerStats` is returned the
response had status 200 and seven tokens, and each field is the integer its
token denotes. -/
theorem fetchServerStats_badNumber :
    (∀ body : List Char, (Split (TrimSpace body) ',').length = 7 →
      (∃ tok ∈ Split (TrimSpace body) ',', ∀ v, ¬ DenotesInt tok v) →
      ∃ err : NumError, fetchServerStats (ok200 body) = .error (.BadNumber err) ∧
        err.Num ∈ Split (TrimSpace body) ',' ∧ (∀ v, ¬ DenotesInt err.Num v) ∧
        ∀ Quote : List Char → List Char,
          "invalid data format: ".toList <+: (FetchError.BadNumber err).Error Quote) ∧
    fetchServerStats (ok200 "a,b,c,d,e,f,g".toList)
      = .error (.BadNumber ⟨"Atoi".toList, "a".toList, .ErrSyntax⟩) ∧
    (∀ (get : Except (List Char) Response) (s : ServerStats),
      fetchServerStats get = .ok s →
      ∃ (body : List Char) (t0 t1 t2 t3 t4 t5 t6 : List Char),
        get = ok200 body ∧
        Split (TrimSpace body) ',' = [t0, t1, t2, t3, t4, t5, t6] ∧
        DenotesInt t0 s.LoadAverage ∧ DenotesInt t1 s.TotalMemory ∧
        DenotesInt t2 s.UsedMemory ∧ DenotesInt t3 s.TotalDisk ∧
        DenotesInt t4 s.UsedDisk ∧ DenotesInt t5 s.TotalNetwork ∧
        DenotesInt t6 s.UsedNetwork) := by
  refine ⟨?_, by decide, ?_⟩
  · intro body h7 ⟨tok, htok, hbad⟩
    obtain ⟨err, he⟩ := parseTokens_of_bad _ tok htok hbad
    obtain ⟨t, ht, hat⟩ := parseTokens_error _ _ he
    obtain ⟨-, hnum, hno⟩ := atoi_error hat
    refine ⟨err, ?_, hnum ▸ ht, hnum ▸ hno, fun Quote => ⟨_, rfl⟩⟩
    rw [fetchServerStats_ok200, if_neg (by simp [h7])]
    simp only [he]
  · intro get s h
    cases get with
    | error e => simp [fetchServerStats] at h
    | ok response =>
      obtain ⟨code, rbody⟩ := response
      by_cases hcode : code = 200
      · subst hcode
        cases rbody with
        | error e => simp [fetchServerStats] at h
        | ok body =>
          have h2 : fetchServerStats (ok200 body) = .ok s := h
          rw [fetchServerStats_ok200] at h2
          by_cases h7 : (Split (TrimSpace body) ',').length = 7
          · rw [if_neg (by simp [h7])] at h2
            cases hp : parseTokens (Split (TrimSpace body) ',') with
            | error e => rw [hp] at h2; cases h2
            | ok data =>
              rw [hp] at h2
              have hf := parseTokens_ok _ _ hp
              have hlen := hf.length_eq
              rw [h7] at hlen
              generalize hsp : Split (TrimSpace body) ',' = toks at h7 hf
              match toks, data, h7, hlen, hf, hsp with
              | [t0, t1, t2, t3, t4, t5, t6], [a, b, c, d, e, f, g], _, _, hf, hsp =>
                simp only [List.forall₂_cons, List.forall₂_nil_left_iff, and_true] at hf
                obtain ⟨h0, h1, h2', h3, h4, h5, h6⟩ := hf
                injection h2 with h2
                subst h2
                exact ⟨body, t0, t1, t2, t3, t4, t5, t6, rfl, hsp,
                  (atoi_ok_iff _ _).1 h0, (atoi_ok_iff _ _).1 h1, (atoi_ok_iff _ _).1 h2',
                  (atoi_ok_iff _ _).1 h3, (atoi_ok_iff _ _).1 h4, (atoi_ok_iff _ _).1 h5,
                  (atoi_ok_iff _ _).1 h6⟩
          · rw [if_pos h7] at h2; cases h2
      · simp [fetchServerStats, hcode] at h

/-- Witness of C4: the third token of `1,2,x,4,5,6,7` is not a number, and
scenario A is returned with the values of its tokens. -/
theorem fetchServerStats_badNumber_witness :
    (∃ err : NumError,
      fetchServerStats (ok200 "1,2,x,4,5,6,7".toList) = .error (.BadNumber err) ∧
        err.Num ∈ Split (TrimSpace "1,2,x,4,5,6,7".toList) ',' ∧
        (∀ v, ¬ DenotesInt err.Num v) ∧
        ∀ Quote : List Char → List Char,
          "invalid data format: ".toList <+: (FetchError.BadNumber err).Error Quote) ∧
    (∃ (body : List Char) (t0 t1 t2 t3 t4 t5 t6 : List Char),
      ok200 "5,1000,500,1000,500,1000,500".toList = ok200 body ∧
        Split (TrimSpace body) ',' = [t0, t1, t2, t3, t4, t5, t6] ∧
        DenotesInt t0 5 ∧ DenotesInt t1 1000 ∧ DenotesInt t2 500 ∧ DenotesInt t3 1000 ∧
        DenotesInt t4 500 ∧ DenotesInt t5 1000 ∧ DenotesInt t6 500) :=
  ⟨fetchServerStats_badNumber.1 "1,2,x,4,5,6,7".toList (by decide)
      ⟨"x".toList, by decide, fun v hv => by
        have h := (atoi_ok_iff _ _).2 hv
        have hx : Atoi "x".toList = .error ⟨"Atoi".toList, "x".toList, .ErrSyntax⟩ := by
          decide
        rw [hx] at h
        cases h⟩,
    fetchServerStats_badNumber.2.2 (ok200 "5,1000,500,1000,500,1000,500".toList)
      ⟨5, 1000, 500, 1000, 500, 1000, 500⟩ (by decide)⟩

/-- C5.  A response whose status code `c` is not 200 gives no `ServerStats`
but the BadStatus error carrying `c`, with the message
`unexpected status code: c`, whatever the body is (read or not, well formed or
not): two responses with the same code give the same result. -/
theorem fetchServerStats_badStatus (c : Int) (hc : c ≠ 200)
    (body body2 : Except (List Char) (List Char)) :
    fetchServerStats (.ok ⟨c, body⟩) = .error (.BadStatus c) ∧
    fetchServerStats (.ok ⟨c, body⟩) = fetchServerStats (.ok ⟨c, body2⟩) ∧
    ∀ Quote : List Char → List Char,
      (FetchError.BadStatus c).Error Quote
        = "unexpected status code: ".toList ++ formatInt c := by
  have h : ∀ b : Except (List Char) (List Char),
      fetchServerStats (.ok ⟨c, b⟩) = .error (.BadStatus c) := by
    intro b
    simp only [fetchServerStats, ne_eq, hc, not_false_eq_true, if_true]
  exact ⟨h body, by rw [h body, h body2], fun _ => rfl⟩

/-- Witness of C5: status 500 with the well-formed body of scenario A. -/
theorem fetchServerStats_badStatus_witness :
    (500 : Int) ≠ 200 ∧
    fetchServerStats (.ok ⟨500, .ok "5,1000,500,1000,500,1000,500".toList⟩)
      = .error (.BadStatus 500) ∧
    (FetchError.BadStatus 500).Error id = "unexpected status code: 500".toList :=
  ⟨by decide,
    (fetchServerStats_badStatus 500 (by decide)
      (.ok "5,1000,500,1000,500,1000,500".toList) (.ok [])).1,
    (fetchServerStats_badStatus 500 (by decide)
      (.ok "5,1000,500,1000,500,1000,500".toList) (.ok [])).2.2 id⟩

/-- C10, as amended.  Scenario D: the status-200 body
`10,100,10,1048576000,1048000000,100,10` is fetched as the record of its seven
numbers, and evaluating that record prints exactly one line,
`Free disk space is too low: 0 Mb left` (576000 free bytes are less than one
unit of 1048576). -/
theorem scenarioD_output :
    fetchServerStats (ok200 "10,100,10,1048576000,1048000000,100,10".toList)
      = .ok ⟨10, 100, 10, 1048576000, 1048000000, 100, 10⟩ ∧
    checkServerStats ⟨10, 100, 10, 1048576000, 1048000000, 100, 10⟩
      = some ["Free disk space is too low: 0 Mb left".toList] := by
  decide

/-- Counterexample to C10 as stated: the line printed for scenario D is not
`Free disk space is too low: 562 Mb left`. -/
theorem scenarioD_not_562 :
    ¬ ∃ s : ServerStats,
      fetchServerStats (ok200 "10,100,10,1048576000,1048000000,100,10".toList) = .ok s ∧
      checkServerStats s = some ["Free disk space is too low: 562 Mb left".toList] := by
  rintro ⟨s, hf, hc⟩
  have h : fetchServerStats (ok200 "10,100,10,1048576000,1048000000,100,10".toList)
      = .ok ⟨10, 100, 10, 1048576000, 1048000000, 100, 10⟩ := by decide
  rw [h] at hf
  injection hf with hf
  subst hf
  revert hc
  decide


/-- C11.  Scenario F: the status-200 body
`40,100,90,100,95,1000000000,999000000` is fetched as the record of its seven
numbers, and evaluating that record prints exactly four lines, in the order
load, memory, disk, network. -/
theorem scenarioF_output :
    fetchServerStats (ok200 "40,100,90,100,95,1000000000,999000000".toList)
      = .ok ⟨40, 100, 90, 100, 95, 1000000000, 999000000⟩ ∧
    checkServerStats ⟨40, 100, 90, 100, 95, 1000000000, 999000000⟩
      = some ["Load Average is too high: 40".toList,
          "Memory usage too high: 90%".toList,
          "Free disk space is too low: 0 Mb left".toList,
          "Network bandwidth usage high: 1 Mbit/s available".toList] := by
  decide

/-! ## Overflow bound -/

/-- C14.  For `0 ≤ used < 92000000000000000` the product `used * 100` is at
most `2^63 - 1`, so Go's 64-bit product is the exact one, and for every
`total > 0` the percentage `checkServerStats` computes,
`used * 100 / total`, is the exact quotient truncated toward zero; hence for a
record with 64-bit fields whose three used values are in that range the output
is the reference list in exact arithmetic. -/
theorem percentage_exact :
    (∀ used : Int, 0 ≤ used → used < 92000000000000000 →
      used * 100 ≤ 9223372036854775807 ∧ goMul used 100 = used * 100) ∧
    (∀ used total : Int, 0 ≤ used → used < 92000000000000000 → 0 < total →
      goQuo (goMul used 100) total = some ((used * 100).tdiv total)) ∧
    (∀ s : ServerStats, FitsInt64 s →
      0 ≤ s.UsedMemory → s.UsedMemory < 92000000000000000 →
      0 ≤ s.UsedDisk → s.UsedDisk < 92000000000000000 →
      0 ≤ s.UsedNetwork → s.UsedNetwork < 92000000000000000 →
      checkServerStats s = some (referenceLines s)) := by
  have hfit : ∀ used : Int, 0 ≤ used → used < 92000000000000000 →
      IsInt64 (used * 100) := by
    intro used h0 h1
    unfold IsInt64 minInt maxInt
    omega
  refine ⟨?_, ?_, ?_⟩
  · intro used h0 h1
    refine ⟨by omega, ?_⟩
    unfold goMul
    exact wrap64_of_isInt64 (hfit used h0 h1)
  · intro used total h0 h1 ht
    rw [goQuo_pos _ ht]
    unfold goMul
    rw [wrap64_of_isInt64 (hfit used h0 h1),
      wrap64_of_isInt64 (isInt64_tdiv (hfit used h0 h1) ht)]
  · intro s hs m0 m1 d0 d1 n0 n1
    exact checkServerStats_exact s hs
      ⟨fun _ => hfit _ m0 m1, fun _ => hfit _ d0 d1, fun _ => hfit _ n0 n1⟩

/-- Witness of C14: 50 GB used of 64 GB. -/
theorem percentage_exact_witness :
    (0 : Int) ≤ 50000000000 ∧ (50000000000 : Int) < 92000000000000000 ∧
    (0 : Int) < 64000000000 ∧
    goQuo (goMul 50000000000 100) 64000000000
      = some (((50000000000 : Int) * 100).tdiv 64000000000) :=
  ⟨by decide, by decide, by decide,
    percentage_exact.2.1 50000000000 64000000000 (by decide) (by decide) (by decide)⟩

/-! ## Purity of the evaluator -/

theorem loadBlock_eq (s : ServerStats) (k : Int) (out : List (List Char)) :
    loadBlock ⟨s, k, out⟩ = some ⟨s, k, out ++
      (if s.LoadAverage > 30 then [loadLine s.LoadAverage] else [])⟩ := by
  unfold loadBlock
  by_cases h : s.LoadAverage > 30 <;> simp [h, Printf]

theorem memoryBlock_eq (s : ServerStats) (k : Int) (out : List (List Char)) :
    memoryBlock ⟨s, k, out⟩ = some ⟨s, k, out ++
      (if s.TotalMemory > 0 ∧ wrap64 ((goMul s.UsedMemory 100).tdiv s.TotalMemory) > 80
        then [memoryLine (wrap64 ((goMul s.UsedMemory 100).tdiv s.TotalMemory))]
        else [])⟩ := by
  unfold memoryBlock
  by_cases h : s.TotalMemory > 0
  · simp only [h, if_true, true_and, goQuo_pos, Option.pure_def, Option.bind_eq_bind,
      Option.some_bind]
    split_ifs <;> simp [Printf]
  · simp [h]

theorem diskBlock_eq (s : ServerStats) (k : Int) (out : List (List Char)) :
    diskBlock ⟨s, k, out⟩ = some ⟨s, k, out ++
      (if s.TotalDisk > 0 ∧ wrap64 ((goMul s.UsedDisk 100).tdiv s.TotalDisk) > 90
        then [diskLine (wrap64 ((goSub s.TotalDisk s.UsedDisk).tdiv 1048576))]
        else [])⟩ := by
  have e1 : (1024 : Int) * 1024 = 1048576 := by norm_num
  unfold diskBlock
  simp only [e1]
  by_cases h : s.TotalDisk > 0
  · simp only [h, if_true, true_and, goQuo_pos, Option.pure_def, Option.bind_eq_bind,
      Option.some_bind]
    split_ifs <;> simp [Printf, goQuo_pos]
  · simp [h]

theorem networkBlock_eq (s : ServerStats) (k : Int) (out : List (List Char)) :
    networkBlock ⟨s, k, out⟩ = some ⟨s, k, out ++
      (if s.TotalNetwork > 0 ∧ wrap64 ((goMul s.UsedNetwork 100).tdiv s.TotalNetwork) > 90
        then [networkLine (wrap64 ((goSub s.TotalNetwork s.UsedNetwork).tdiv 1000000))]
        else [])⟩ := by
  unfold networkBlock
  by_cases h : s.TotalNetwork > 0
  · simp only [h, if_true, true_and, goQuo_pos, Option.pure_def, Option.bind_eq_bind,
      Option.some_bind]
    split_ifs <;> simp [Printf, goQuo_pos]
  · simp [h]

/-- C15.  `checkServerStats` is deterministic and pure.  Run on any state it
can reach, it never panics, leaves the record and `failedAttempts` as they
were, and adds to the output exactly the lines that are a function of the
record alone; two records with equal fields give the same lines in the same
order, and two states holding the same record get the same lines appended,
whatever their counters and earlier output. -/
theorem checkServerStats_pure :
    (∀ w : EvalState, ∃ lines, checkServerStats w.stats = some lines ∧
      checkServerStatsOn w = some { stats := w.stats
                                    failedAttempts := w.failedAttempts
                                    output := w.output ++ lines }) ∧
    (∀ s1 s2 : ServerStats, s1.LoadAverage = s2.LoadAverage →
      s1.TotalMemory = s2.TotalMemory → s1.UsedMemory = s2.UsedMemory →
      s1.TotalDisk = s2.TotalDisk → s1.UsedDisk = s2.UsedDisk →
      s1.TotalNetwork = s2.TotalNetwork → s1.UsedNetwork = s2.UsedNetwork →
      checkServerStats s1 = checkServerStats s2) ∧
    (∀ (s : ServerStats) (k1 k2 : Int) (out1 out2 : List (List Char)),
      ∃ lines, checkServerStatsOn ⟨s, k1, out1⟩ = some ⟨s, k1, out1 ++ lines⟩ ∧
        checkServerStatsOn ⟨s, k2, out2⟩ = some ⟨s, k2, out2 ++ lines⟩) := by
  have main : ∀ w : EvalState, ∃ lines, checkServerStats w.stats = some lines ∧
      checkServerStatsOn w = some { stats := w.stats
                                    failedAttempts := w.failedAttempts
                                    output := w.output ++ lines } := by
    intro w
    refine ⟨_, checkServerStats_eq w.stats, ?_⟩
    obtain ⟨s, k, out⟩ := w
    unfold checkServerStatsOn
    simp only [loadBlock_eq, memoryBlock_eq, diskBlock_eq, networkBlock_eq,
      Option.bind_eq_bind, Option.some_bind, List.append_assoc]
  refine ⟨main, ?_, ?_⟩
  · intro s1 s2 h1 h2 h3 h4 h5 h6 h7
    obtain ⟨a1, b1, c1, d1, e1, f1, g1⟩ := s1
    obtain ⟨a2, b2, c2, d2, e2, f2, g2⟩ := s2
    simp only at h1 h2 h3 h4 h5 h6 h7
    subst h1 h2 h3 h4 h5 h6 h7
    rfl
  · intro s k1 k2 out1 out2
    obtain ⟨l1, hl1, h1⟩ := main ⟨s, k1, out1⟩
    obtain ⟨l2, hl2, h2⟩ := main ⟨s, k2, out2⟩
    simp only at hl1 hl2
    rw [hl1] at hl2
    injection hl2 with hl2
    subst hl2
    exact ⟨l1, h1, h2⟩

/-- Witness of C15: two records built from the same seven numbers. -/
theorem checkServerStats_pure_witness :
    checkServerStats ⟨40, 100, 90, 100, 95, 1000000000, 999000000⟩
      = checkServerStats { LoadAverage := 40, TotalMemory := 100, UsedMemory := 90,
                           TotalDisk := 100, UsedDisk := 95, TotalNetwork := 1000000000,
                           UsedNetwork := 999000000 } :=
  checkServerStats_pure.2.1 _ _ rfl rfl rfl rfl rfl rfl rfl

/-! ## Runs of consecutive failures -/

theorem tick_failure_mod (Quote : List Char → List Char) (i : Nat) (out : List (List Char))
    {get : Except (List Char) Response} {err : FetchError}
    (h : fetchServerStats get = .error err) :
    tick Quote ⟨((i % 3 : Nat) : Int), out⟩ get
      = some ⟨(((i + 1) % 3 : Nat) : Int),
          out ++ (if (i + 1) % 3 = 0 then [errorLine Quote err, degradedNotice]
            else [errorLine Quote err])⟩ := by
  rw [tick_failure Quote _ h]
  have h3 : i % 3 = 0 ∨ i % 3 = 1 ∨ i % 3 = 2 := by omega
  rcases h3 with h0 | h0 | h0
  · have h1 : (i + 1) % 3 = 1 := by omega
    rw [h0, h1]
    exact congrArg some (handleFailedAttempt_lt 0 _ (by decide) (by decide))
  · have h1 : (i + 1) % 3 = 2 := by omega
    rw [h0, h1]
    exact congrArg some (handleFailedAttempt_lt 1 _ (by decide) (by decide))
  · have h1 : (i + 1) % 3 = 0 := by omega
    rw [h0, h1]
    simp only [if_true]
    have := handleFailedAttempt_two (out ++ [errorLine Quote err])
    simp only [List.append_assoc, List.singleton_append] at this
    exact congrArg some this

/-- After failure number `i` of a run, further consecutive failures print the
expected output and leave the counter at the number of failures modulo 3. -/
theorem run_failures (Quote : List Char → List Char)
    {gets : List (Except (List Char) Response)} {errs : List FetchError}
    (h : List.Forall₂ (fun g e => fetchServerStats g = .error e) gets errs) :
    ∀ (i : Nat) (out : List (List Char)),
      run Quote ⟨((i % 3 : Nat) : Int), out⟩ gets
        = some ⟨(((i + gets.length) % 3 : Nat) : Int),
            out ++ failureOutput Quote i errs⟩ := by
  induction h with
  | nil =>
    intro i out
    simp [run, failureOutput]
  | cons hg _ ih =>
    intro i out
    simp only [run, tick_failure_mod Quote i out hg, ih (i + 1), failureOutput,
      List.length_cons, List.append_assoc]
    congr 3
    omega

theorem count_failureOutput (Quote : List Char → List Char) (errs : List FetchError) :
    ∀ i : Nat, List.count degradedNotice (failureOutput Quote i errs)
      = (i + errs.length) / 3 - i / 3 := by
  induction errs with
  | nil => intro i; simp [failureOutput]
  | cons e rest ih =>
    intro i
    have hne := errorLine_ne_degradedNotice Quote e
    simp only [failureOutput, List.count_append, ih (i + 1), List.length_cons]
    by_cases h3 : (i + 1) % 3 = 0
    · rw [if_pos h3]
      simp only [List.count_cons, List.count_nil, beq_iff_eq, hne, if_false, if_true]
      omega
    · rw [if_neg h3]
      simp only [List.count_cons, List.count_nil, beq_iff_eq, hne, if_false]
      omega

/-- C16.  Started with `failedAttempts = 0`, `n` consecutive failed ticks print
the `Error:` line of each failure with the degraded notice right after the
3rd, 6th, 9th, ... one, so the notice occurs `n / 3` times, and leave
`failedAttempts = n mod 3`. -/
theorem consecutive_failures (Quote : List Char → List Char)
    (gets : List (Except (List Char) Response)) (errs : List FetchError)
    (h : List.Forall₂ (fun g e => fetchServerStats g = .error e) gets errs) :
    run Quote LoopState.init gets
      = some ⟨((gets.length % 3 : Nat) : Int), failureOutput Quote 0 errs⟩ ∧
    List.count degradedNotice (failureOutput Quote 0 errs) = gets.length / 3 := by
  constructor
  · have := run_failures Quote h 0 []
    simpa [LoopState.init] using this
  · rw [count_failureOutput, h.length_eq]
    simp

/-- Witness of C16: four answers with status 500. -/
theorem consecutive_failures_witness :
    run id LoopState.init
        [.ok ⟨500, .ok []⟩, .ok ⟨500, .ok []⟩, .ok ⟨500, .ok []⟩, .ok ⟨500, .ok []⟩]
      = some ⟨((4 % 3 : Nat) : Int),
          failureOutput id 0 [.BadStatus 500, .BadStatus 500, .BadStatus 500,
            .BadStatus 500]⟩ ∧
    failureOutput id 0 [.BadStatus 500, .BadStatus 500, .BadStatus 500, .BadStatus 500]
      = ["Error: unexpected status code: 500".toList,
          "Error: unexpected status code: 500".toList,
          "Error: unexpected status code: 500".toList,
          "Unable to fetch server statistics after multiple attempts.".toList,
          "Error: unexpected status code: 500".toList] :=
  ⟨(consecutive_failures id
      [.ok ⟨500, .ok []⟩, .ok ⟨500, .ok []⟩, .ok ⟨500, .ok []⟩, .ok ⟨500, .ok []⟩]
      [.BadStatus 500, .BadStatus 500, .BadStatus 500, .BadStatus 500]
      (List.Forall₂.cons (by decide) (List.Forall₂.cons (by decide)
        (List.Forall₂.cons (by decide) (List.Forall₂.cons (by decide)
          List.Forall₂.nil))))).1,
    by decide⟩

/-! ## Lines determine the number they print -/

theorem toDigits_head_ne_minus (n : Nat) (l : List Char) :
    Nat.toDigits 10 n ≠ '-' :: l := by
  intro h
  obtain ⟨-, hd, -⟩ := toDigits_spec n
  have := hd '-' (by rw [h]; exact List.mem_cons_self _ _)
  revert this
  decide

theorem formatInt_injective {x y : Int} (h : formatInt x = formatInt y) : x = y := by
  have vx := (toDigits_spec x.natAbs).2.2
  have vy := (toDigits_spec y.natAbs).2.2
  unfold formatInt at h
  by_cases hx : x < 0 <;> by_cases hy : y < 0
  · rw [if_pos hx, if_pos hy] at h
    injection h with _ h
    rw [h, vy] at vx
    omega
  · rw [if_pos hx, if_neg hy] at h
    exact absurd h.symm (toDigits_head_ne_minus _ _)
  · rw [if_neg hx, if_pos hy] at h
    exact absurd h (toDigits_head_ne_minus _ _)
  · rw [if_neg hx, if_neg hy] at h
    rw [h, vy] at vx
    omega

theorem memoryLine_injective {v w : Int} (h : memoryLine v = memoryLine w) : v = w := by
  unfold memoryLine at h
  exact formatInt_injective (List.append_cancel_left (List.append_cancel_right h))

theorem diskLine_injective {v w : Int} (h : diskLine v = diskLine w) : v = w := by
  unfold diskLine at h
  exact formatInt_injective (List.append_cancel_left (List.append_cancel_right h))

theorem networkLine_injective {v w : Int} (h : networkLine v = networkLine w) : v = w := by
  unfold networkLine at h
  exact formatInt_injective (List.append_cancel_left (List.append_cancel_right h))

theorem head_ne_of_eq {l m : List Char} {a b : Char} (hl : l.head? = some a)
    (hm : m.head? = some b) (hab : a ≠ b) : l ≠ m := by
  intro h
  rw [h, hm] at hl
  injection hl with hl
  exact hab hl.symm

/-- The memory lines of an evaluation: there is one exactly when the 64-bit
percentage exceeds 80, and it prints that percentage. -/
theorem memoryLine_mem_iff {s : ServerStats} {lines : List (List Char)}
    (h : checkServerStats s = some lines) (v : Int) :
    memoryLine v ∈ lines ↔
      (s.TotalMemory > 0 ∧ wrap64 ((goMul s.UsedMemory 100).tdiv s.TotalMemory) > 80) ∧
        v = wrap64 ((goMul s.UsedMemory 100).tdiv s.TotalMemory) := by
  rw [checkServerStats_eq] at h
  injection h with h
  subst h
  have n1 : ∀ x, memoryLine v ≠ loadLine x := fun x =>
    head_ne_of_eq (memoryLine_head v) (loadLine_head x) (by decide)
  have n3 : ∀ x, memoryLine v ≠ diskLine x := fun x =>
    head_ne_of_eq (memoryLine_head v) (diskLine_head x) (by decide)
  have n4 : ∀ x, memoryLine v ≠ networkLine x := fun x =>
    head_ne_of_eq (memoryLine_head v) (networkLine_head x) (by decide)
  simp only [List.mem_append]
  constructor
  · rintro (((hl | hl) | hl) | hl)
    · split_ifs at hl <;> simp at hl
      exact absurd hl (n1 _)
    · split_ifs at hl with hc <;> simp at hl
      exact ⟨hc, memoryLine_injective hl⟩
    · split_ifs at hl <;> simp at hl
      exact absurd hl (n3 _)
    · split_ifs at hl <;> simp at hl
      exact absurd hl (n4 _)
  · rintro ⟨hc, rfl⟩
    refine Or.inl (Or.inl (Or.inr ?_))
    rw [if_pos hc]
    exact List.mem_singleton_self _

/-- The disk lines of an evaluation: there is one exactly when the 64-bit
usage exceeds 90, and it prints the 64-bit free amount in units of 1048576. -/
theorem diskLine_mem_iff {s : ServerStats} {lines : List (List Char)}
    (h : checkServerStats s = some lines) (v : Int) :
    diskLine v ∈ lines ↔
      (s.TotalDisk > 0 ∧ wrap64 ((goMul s.UsedDisk 100).tdiv s.TotalDisk) > 90) ∧
        v = wrap64 ((goSub s.TotalDisk s.UsedDisk).tdiv 1048576) := by
  rw [checkServerStats_eq] at h
  injection h with h
  subst h
  have n1 : ∀ x, diskLine v ≠ loadLine x := fun x =>
    head_ne_of_eq (diskLine_head v) (loadLine_head x) (by decide)
  have n2 : ∀ x, diskLine v ≠ memoryLine x := fun x =>
    head_ne_of_eq (diskLine_head v) (memoryLine_head x) (by decide)
  have n4 : ∀ x, diskLine v ≠ networkLine x := fun x =>
    head_ne_of_eq (diskLine_head v) (networkLine_head x) (by decide)
  simp only [List.mem_append]
  constructor
  · rintro (((hl | hl) | hl) | hl)
    · split_ifs at hl <;> simp at hl
      exact absurd hl (n1 _)
    · split_ifs at hl <;> simp at hl
      exact absurd hl (n2 _)
    · split_ifs at hl with hc <;> simp at hl
      exact ⟨hc, diskLine_injective hl⟩
    · split_ifs at hl <;> simp at hl
      exact absurd hl (n4 _)
  · rintro ⟨hc, rfl⟩
    refine Or.inl (Or.inr ?_)
    rw [if_pos hc]
    exact List.mem_singleton_self _

/-- The network lines of an evaluation: there is one exactly when the 64-bit
usage exceeds 90, and it prints the 64-bit free amount in units of 1000000. -/
theorem networkLine_mem_iff {s : ServerStats} {lines : List (List Char)}
    (h : checkServerStats s = some lines) (v : Int) :
    networkLine v ∈ lines ↔
      (s.TotalNetwork > 0 ∧
          wrap64 ((goMul s.UsedNetwork 100).tdiv s.TotalNetwork) > 90) ∧
        v = wrap64 ((goSub s.TotalNetwork s.UsedNetwork).tdiv 1000000) := by
  rw [checkServerStats_eq] at h
  injection h with h
  subst h
  have n1 : ∀ x, networkLine v ≠ loadLine x := fun x =>
    head_ne_of_eq (networkLine_head v) (loadLine_head x) (by decide)
  have n2 : ∀ x, networkLine v ≠ memoryLine x := fun x =>
    head_ne_of_eq (networkLine_head v) (memoryLine_head x) (by decide)
  have n3 : ∀ x, networkLine v ≠ diskLine x := fun x =>
    head_ne_of_eq (networkLine_head v) (diskLine_head x) (by decide)
  simp only [List.mem_append]
  constructor
  · rintro (((hl | hl) | hl) | hl)
    · split_ifs at hl <;> simp at hl
      exact absurd hl (n1 _)
    · split_ifs at hl <;> simp at hl
      exact absurd hl (n2 _)
    · split_ifs at hl <;> simp at hl
      exact absurd hl (n3 _)
    · split_ifs at hl with hc <;> simp at hl
      exact ⟨hc, networkLine_injective hl⟩
  · rintro ⟨hc, rfl⟩
    refine Or.inr ?_
    rw [if_pos hc]
    exact List.mem_singleton_self _

/-! ## Thresholds -/

theorem wrap64_le_of_nonneg {x : Int} (h : 0 ≤ x) : wrap64 x ≤ x := by
  unfold wrap64
  omega

/-- When the exact quotient `u * 100 / t` is `q ≥ 1`, the quotient computed in
64-bit arithmetic does not exceed `q`, overflow or not. -/
theorem quotient_not_above (u t q : Int) (ht : 0 < t) (hq1 : 1 ≤ q)
    (hq : (u * 100).tdiv t = q) : ¬ wrap64 ((goMul u 100).tdiv t) > q := by
  have hP : 0 ≤ u * 100 := by
    by_contra hneg
    have := (tdiv_abs_le (u * 100) ht).2 (by omega)
    omega
  have he : (u * 100).tdiv t = (u * 100) / t := Int.tdiv_eq_ediv hP (le_of_lt ht)
  have hlt : u * 100 < (q + 1) * t := by
    have h := Int.lt_ediv_add_one_mul_self (u * 100) ht
    rw [← he, hq] at h
    exact h
  have hw := isInt64_wrap64 (u * 100)
  have hle := wrap64_le_of_nonneg hP
  unfold goMul
  rw [wrap64_of_isInt64 (isInt64_tdiv hw ht)]
  rcases le_total 0 (wrap64 (u * 100)) with h0 | h0
  · rw [Int.tdiv_eq_ediv h0 (le_of_lt ht)]
    have h2 : wrap64 (u * 100) < (q + 1) * t := lt_of_le_of_lt hle hlt
    have := Int.ediv_lt_of_lt_mul ht h2
    omega
  · have := (tdiv_abs_le (wrap64 (u * 100)) ht).2 h0
    omega

/-- C17.  All four thresholds are strict.  A record with `LoadAverage = 30`
and exact quotients `UsedMemory*100/TotalMemory = 80`,
`UsedDisk*100/TotalDisk = 90`, `UsedNetwork*100/TotalNetwork = 90` prints no
line; so do `30,100,80,100,90,100,90` and `30,1000,809,1000,909,1000,909`;
and every memory line printed carries a percentage of at least 81. -/
theorem thresholds_strict :
    (∀ s : ServerStats, s.LoadAverage = 30 →
      (s.UsedMemory * 100).tdiv s.TotalMemory = 80 →
      (s.UsedDisk * 100).tdiv s.TotalDisk = 90 →
      (s.UsedNetwork * 100).tdiv s.TotalNetwork = 90 →
      checkServerStats s = some []) ∧
    checkServerStats ⟨30, 100, 80, 100, 90, 100, 90⟩ = some [] ∧
    checkServerStats ⟨30, 1000, 809, 1000, 909, 1000, 909⟩ = some [] ∧
    (∀ (s : ServerStats) (lines : List (List Char)) (v : Int),
      checkServerStats s = some lines → memoryLine v ∈ lines → 81 ≤ v) := by
  refine ⟨?_, by decide, by decide, ?_⟩
  · intro s hl hm hd hn
    rw [checkServerStats_eq]
    have c1 : ¬ s.LoadAverage > 30 := by omega
    have c2 : ¬ (s.TotalMemory > 0 ∧
        wrap64 ((goMul s.UsedMemory 100).tdiv s.TotalMemory) > 80) :=
      fun h => quotient_not_above _ _ 80 h.1 (by decide) hm h.2
    have c3 : ¬ (s.TotalDisk > 0 ∧
        wrap64 ((goMul s.UsedDisk 100).tdiv s.TotalDisk) > 90) :=
      fun h => quotient_not_above _ _ 90 h.1 (by decide) hd h.2
    have c4 : ¬ (s.TotalNetwork > 0 ∧
        wrap64 ((goMul s.UsedNetwork 100).tdiv s.TotalNetwork) > 90) :=
      fun h => quotient_not_above _ _ 90 h.1 (by decide) hn h.2
    rw [if_neg c1, if_neg c2, if_neg c3, if_neg c4]
    rfl
  · intro s lines v h hv
    obtain ⟨⟨-, hgt⟩, rfl⟩ := (memoryLine_mem_iff h v).1 hv
    omega

/-- Witness of C17: `30,1000,809,1000,909,1000,909`, where truncation hides
the excess, and the memory line of scenario C. -/
theorem thresholds_strict_witness :
    checkServerStats ⟨30, 1000, 809, 1000, 909, 1000, 909⟩ = some [] ∧
    (81 : Int) ≤ 81 :=
  ⟨thresholds_strict.1 ⟨30, 1000, 809, 1000, 909, 1000, 909⟩ rfl (by decide) (by decide)
      (by decide),
    thresholds_strict.2.2.2 ⟨10, 100, 81, 100, 10, 100, 10⟩
      ["Memory usage too high: 81%".toList] 81 (by decide) (by decide)⟩

/-! ## Used above total -/

/-- With `0 < total < used` and a product `used * 100` that fits, the 64-bit
usage exceeds 90 and the 64-bit free amount in units of `d` is the negated
quotient of the excess. -/
theorem used_above_total (used total d : Int) (ht : 0 < total) (hu : total < used)
    (hfit : IsInt64 (used * 100)) (hd : 0 < d) :
    wrap64 ((goMul used 100).tdiv total) > 90 ∧
      wrap64 ((goSub total used).tdiv d) = -((used - total) / d) := by
  have hr : IsInt64 (total - used) := by
    unfold IsInt64 minInt maxInt at *
    omega
  constructor
  · unfold goMul
    rw [wrap64_of_isInt64 hfit, wrap64_of_isInt64 (isInt64_tdiv hfit ht),
      Int.tdiv_eq_ediv (by omega) (le_of_lt ht)]
    have : (100 : Int) ≤ used * 100 / total :=
      Int.le_ediv_of_mul_le ht (by omega)
    omega
  · unfold goSub
    rw [wrap64_of_isInt64 hr, wrap64_of_isInt64 (isInt64_tdiv hr hd)]
    have e : total - used = -(used - total) := by omega
    rw [e, Int.neg_tdiv, Int.tdiv_eq_ediv (by omega) (le_of_lt hd)]

/-- C18, as amended.  When used exceeds total and the product `used * 100`
fits a 64-bit `int`, the line fires and the free amount printed is truncated
toward zero: for `TotalDisk > 0`, `UsedDisk > TotalDisk` the one disk line is
that of `-((UsedDisk - TotalDisk) div 1048576)`, which is 0 when the excess is
below 1048576; for `TotalDisk = 100`, `UsedDisk = 2000000` it reads
`-1 Mb left` although the floored quotient is -2; the same holds for the
network line with divisor 1000000. -/
theorem free_amount_truncated :
    (∀ s : ServerStats, s.TotalDisk > 0 → s.UsedDisk > s.TotalDisk →
      IsInt64 (s.UsedDisk * 100) →
      ∃ lines, checkServerStats s = some lines ∧
        diskLine (-((s.UsedDisk - s.TotalDisk) / 1048576)) ∈ lines ∧
        (∀ v, diskLine v ∈ lines → v = -((s.UsedDisk - s.TotalDisk) / 1048576)) ∧
        (s.UsedDisk - s.TotalDisk < 1048576 → diskLine 0 ∈ lines)) ∧
    (∀ s : ServerStats, s.TotalNetwork > 0 → s.UsedNetwork > s.TotalNetwork →
      IsInt64 (s.UsedNetwork * 100) →
      ∃ lines, checkServerStats s = some lines ∧
        networkLine (-((s.UsedNetwork - s.TotalNetwork) / 1000000)) ∈ lines ∧
        (∀ v, networkLine v ∈ lines →
          v = -((s.UsedNetwork - s.TotalNetwork) / 1000000)) ∧
        (s.UsedNetwork - s.TotalNetwork < 1000000 → networkLine 0 ∈ lines)) ∧
    checkServerStats ⟨0, 0, 0, 100, 2000000, 0, 0⟩
      = some ["Free disk space is too low: -1 Mb left".toList] ∧
    ((100 : Int) - 2000000) / 1048576 = -2 := by
  refine ⟨?_, ?_, by decide, by decide⟩
  · intro s ht hu hfit
    obtain ⟨hfire, hval⟩ := used_above_total s.UsedDisk s.TotalDisk 1048576 ht hu hfit
      (by decide)
    have hmem := diskLine_mem_iff (checkServerStats_eq s)
    refine ⟨_, checkServerStats_eq s, ?_, ?_, ?_⟩
    · exact (hmem _).2 ⟨⟨ht, hfire⟩, hval.symm⟩
    · intro v hv
      rw [((hmem v).1 hv).2, hval]
    · intro hsmall
      have h0 : (s.UsedDisk - s.TotalDisk) / 1048576 = 0 :=
        Int.ediv_eq_zero_of_lt (by omega) hsmall
      refine (hmem 0).2 ⟨⟨ht, hfire⟩, ?_⟩
      rw [hval, h0]
      rfl
  · intro s ht hu hfit
    obtain ⟨hfire, hval⟩ := used_above_total s.UsedNetwork s.TotalNetwork 1000000 ht hu
      hfit (by decide)
    have hmem := networkLine_mem_iff (checkServerStats_eq s)
    refine ⟨_, checkServerStats_eq s, ?_, ?_, ?_⟩
    · exact (hmem _).2 ⟨⟨ht, hfire⟩, hval.symm⟩
    · intro v hv
      rw [((hmem v).1 hv).2, hval]
    · intro hsmall
      have h0 : (s.UsedNetwork - s.TotalNetwork) / 1000000 = 0 :=
        Int.ediv_eq_zero_of_lt (by omega) hsmall
      refine (hmem 0).2 ⟨⟨ht, hfire⟩, ?_⟩
      rw [hval, h0]
      rfl

/-- Witness of C18: 100 bytes of disk with 2000000 used. -/
theorem free_amount_truncated_witness :
    (100 : Int) > 0 ∧ (2000000 : Int) > 100 ∧ IsInt64 ((2000000 : Int) * 100) ∧
    ∃ lines, checkServerStats ⟨0, 0, 0, 100, 2000000, 0, 0⟩ = some lines ∧
      diskLine (-(((2000000 : Int) - 100) / 1048576)) ∈ lines ∧
      (∀ v, diskLine v ∈ lines → v = -(((2000000 : Int) - 100) / 1048576)) ∧
      ((2000000 : Int) - 100 < 1048576 → diskLine 0 ∈ lines) :=
  ⟨by decide, by decide, by decide,
    free_amount_truncated.1 ⟨0, 0, 0, 100, 2000000, 0, 0⟩ (by decide) (by decide)
      (by decide)⟩

/-- Counterexample to C18 as stated: with `TotalDisk = 1` and
`UsedDisk = 2^62` used exceeds total, but the 64-bit product `UsedDisk * 100`
wraps to 0, the usage computed is 0 and no disk line is printed. -/
theorem free_amount_overflow :
    FitsInt64 overflowDiskStats ∧ overflowDiskStats.TotalDisk > 0 ∧
    overflowDiskStats.UsedDisk > overflowDiskStats.TotalDisk ∧
    checkServerStats overflowDiskStats = some [] := by
  decide

/-! ## Trimming and splitting, continued -/

theorem dropWhile_append_of_all (p : Char → Bool) (l x : List Char)
    (h : ∀ c ∈ l, p c = true) : (l ++ x).dropWhile p = x.dropWhile p := by
  induction l with
  | nil => rfl
  | cons c cs ih =>
    have hc := h c (List.mem_cons_self _ _)
    simp only [List.cons_append, List.dropWhile, hc]
    exact ih (fun d hd => h d (List.mem_cons_of_mem _ hd))

theorem dropWhile_append_of_exists (p : Char → Bool) (b s : List Char)
    (h : ∃ c ∈ b, p c = false) : (b ++ s).dropWhile p = b.dropWhile p ++ s := by
  induction b with
  | nil => obtain ⟨c, hc, -⟩ := h; simp at hc
  | cons c cs ih =>
    cases hp : p c with
    | false => simp [List.dropWhile, hp]
    | true =>
      simp only [List.cons_append, List.dropWhile, hp]
      apply ih
      obtain ⟨d, hd, hpd⟩ := h
      rcases List.mem_cons.1 hd with rfl | hd
      · rw [hp] at hpd; cases hpd
      · exact ⟨d, hd, hpd⟩

theorem dropWhile_eq_nil_of_all (p : Char → Bool) (l : List Char)
    (h : ∀ c ∈ l, p c = true) : l.dropWhile p = [] := by
  have := dropWhile_append_of_all p l [] h
  simpa using this

/-- White space around a string does not change its trimming. -/
theorem trimSpace_surround (p b s : List Char) (hp : ∀ c ∈ p, isSpace c = true)
    (hs : ∀ c ∈ s, isSpace c = true) : TrimSpace (p ++ b ++ s) = TrimSpace b := by
  unfold TrimSpace
  rw [List.append_assoc, dropWhile_append_of_all _ _ _ hp]
  by_cases hb : ∃ c ∈ b, isSpace c = false
  · rw [dropWhile_append_of_exists _ _ _ hb, List.reverse_append,
      dropWhile_append_of_all _ _ _ (fun c hc => hs c (List.mem_reverse.1 hc))]
  · have hall : ∀ c ∈ b, isSpace c = true := by
      intro c hc
      cases hsp : isSpace c with
      | true => rfl
      | false => exact absurd ⟨c, hc, hsp⟩ hb
    have h1 : ∀ c ∈ b ++ s, isSpace c = true := by
      intro c hc
      rcases List.mem_append.1 hc with hc | hc
      · exact hall c hc
      · exact hs c hc
    rw [dropWhile_eq_nil_of_all _ _ h1, dropWhile_eq_nil_of_all _ _ hall]

/-- A string that starts and ends with a character that is not white space is
its own trimming. -/
theorem trimSpace_ends (a z : Char) (m : List Char) (ha : isSpace a = false)
    (hz : isSpace z = false) : TrimSpace (a :: (m ++ [z])) = a :: (m ++ [z]) := by
  unfold TrimSpace
  have h1 : (a :: (m ++ [z])).dropWhile isSpace = a :: (m ++ [z]) := by
    simp [List.dropWhile, ha]
  have h2 : (a :: (m ++ [z])).reverse = z :: (m.reverse ++ [a]) := by simp
  rw [h1, h2]
  have h3 : (z :: (m.reverse ++ [a])).dropWhile isSpace = z :: (m.reverse ++ [a]) := by
    simp [List.dropWhile, hz]
  rw [h3]
  simp

theorem isSpace_of_isWireSpace {c : Char} (h : isWireSpace c = true) : isSpace c = true := by
  simp only [isWireSpace, Bool.or_eq_true, beq_iff_eq] at h
  rcases h with ((rfl | rfl) | rfl) | rfl <;> decide

/-- The number of pieces is the number of separators plus one. -/
theorem length_split (sep : Char) (s : List Char) :
    (Split s sep).length = s.count sep + 1 := by
  induction s with
  | nil => simp [Split]
  | cons c cs ih =>
    unfold Split
    by_cases hc : c = sep
    · subst hc
      simp [ih]
    · rw [if_neg hc]
      have hcnt : (c :: cs).count sep = cs.count sep := by
        rw [List.count_cons]
        simp [hc]
      rw [hcnt, ← ih]
      cases hsp : Split cs sep with
      | nil => exact absurd hsp (split_ne_nil _ _)
      | cons t ts => simp

/-- Every character other than the separator lies in one of the pieces. -/
theorem mem_split (sep : Char) (s : List Char) :
    ∀ c ∈ s, c ≠ sep → ∃ t ∈ Split s sep, c ∈ t := by
  induction s with
  | nil => intro c hc; simp at hc
  | cons d ds ih =>
    intro c hc hne
    unfold Split
    by_cases hd : d = sep
    · rw [if_pos hd]
      rcases List.mem_cons.1 hc with rfl | hc
      · exact absurd hd hne
      · obtain ⟨t, ht, hct⟩ := ih c hc hne
        exact ⟨t, List.mem_cons_of_mem _ ht, hct⟩
    · rw [if_neg hd]
      cases hsp : Split ds sep with
      | nil => exact absurd hsp (split_ne_nil _ _)
      | cons t ts =>
        rcases List.mem_cons.1 hc with rfl | hc
        · exact ⟨c :: t, List.mem_cons_self _ _, List.mem_cons_self _ _⟩
        · obtain ⟨u, hu, hcu⟩ := ih c hc hne
          rw [hsp] at hu
          rcases List.mem_cons.1 hu with rfl | hu
          · exact ⟨d :: u, List.mem_cons_self _ _, List.mem_cons_of_mem _ hcu⟩
          · exact ⟨u, List.mem_cons_of_mem _ hu, hcu⟩

theorem split_cons_sep (sep : Char) (cs : List Char) :
    Split (sep :: cs) sep = [] :: Split cs sep := by
  conv_lhs => unfold Split
  simp

theorem split_cons_ne {c sep : Char} (h : c ≠ sep) {cs t : List Char}
    {ts : List (List Char)} (hsp : Split cs sep = t :: ts) :
    Split (c :: cs) sep = (c :: t) :: ts := by
  conv_lhs => unfold Split
  rw [if_neg h, hsp]

/-- Splitting distributes over a separator: the pieces of the left part, then
the pieces of the right part. -/
theorem split_append_sep_all (sep : Char) (a b : List Char) :
    Split (a ++ sep :: b) sep = Split a sep ++ Split b sep := by
  induction a with
  | nil =>
    simp only [List.nil_append]
    rw [split_cons_sep]
    simp [Split]
  | cons c cs ih =>
    simp only [List.cons_append]
    by_cases hc : c = sep
    · subst hc
      rw [split_cons_sep, split_cons_sep, ih]
      rfl
    · cases hsp : Split cs sep with
      | nil => exact absurd hsp (split_ne_nil _ _)
      | cons t ts =>
        have h2 : Split (cs ++ sep :: b) sep = t :: (ts ++ Split b sep) := by
          rw [ih, hsp]
          rfl
        rw [split_cons_ne hc h2, split_cons_ne hc hsp]
        rfl

theorem denotesInt_chars {t : List Char} {v : Int} (h : DenotesInt t v) :
    t ≠ [] ∧ ∀ c ∈ t, isSpace c = false ∧ c ≠ ',' := by
  obtain ⟨ds, hne, hd, -, h⟩ := h
  have hdig : ∀ c ∈ ds, isSpace c = false ∧ c ≠ ',' := fun c hc => isDigit_not_space (hd c hc)
  rcases h with ⟨rfl, -⟩ | ⟨rfl, -⟩ | ⟨rfl, -⟩
  · exact ⟨hne, hdig⟩
  · refine ⟨by simp, ?_⟩
    intro c hc
    rcases List.mem_cons.1 hc with rfl | hc
    · exact ⟨by decide, by decide⟩
    · exact hdig c hc
  · refine ⟨by simp, ?_⟩
    intro c hc
    rcases List.mem_cons.1 hc with rfl | hc
    · exact ⟨by decide, by decide⟩
    · exact hdig c hc

/-- The text of seven well-formed tokens joined by commas: it splits back into
the tokens, holds six commas and no white space, and is not empty. -/
theorem wellFormed_join {toks : List (List Char)} (h : WellFormedTokens toks) :
    Split (joinComma toks) ',' = toks ∧ (joinComma toks).count ',' = 6 ∧
      (∀ c ∈ joinComma toks, isSpace c = false) ∧ joinComma toks ≠ [] := by
  obtain ⟨hlen, hden⟩ := h
  have hcomma : ∀ u ∈ toks, ',' ∉ u := by
    intro u hu hmem
    obtain ⟨v, hv⟩ := hden u hu
    exact ((denotesInt_chars hv).2 _ hmem).2 rfl
  have hsplit : Split (joinComma toks) ',' = toks := by
    cases toks with
    | nil => simp at hlen
    | cons t ts => exact split_joinComma t ts hcomma
  have hcount : (joinComma toks).count ',' = 6 := by
    have := length_split ',' (joinComma toks)
    rw [hsplit, hlen] at this
    omega
  refine ⟨hsplit, hcount, ?_, ?_⟩
  · intro c hc
    rcases mem_joinComma toks c hc with rfl | ⟨t, ht, hct⟩
    · decide
    · obtain ⟨v, hv⟩ := hden t ht
      exact ((denotesInt_chars hv).2 c hct).1
  · intro hnil
    rw [hnil] at hcount
    simp at hcount

/-- Seven tokens, one of which denotes no integer, give the BadNumber error. -/
theorem fetchServerStats_of_bad_token (body tok : List Char)
    (h7 : (Split (TrimSpace body) ',').length = 7)
    (htok : tok ∈ Split (TrimSpace body) ',') (hbad : ∀ v, ¬ DenotesInt tok v) :
    ∃ err : NumError, fetchServerStats (ok200 body) = .error (.BadNumber err) := by
  obtain ⟨err, he⟩ := parseTokens_of_bad _ tok htok hbad
  refine ⟨err, ?_⟩
  rw [fetchServerStats_ok200, if_neg (by simp [h7])]
  simp only [he]

/-! ## White space, shape and precedence -/

/-- The fetcher sees a status-200 body only through its trimmed text. -/
theorem fetchServerStats_of_trim_eq {b1 b2 : List Char} (h : TrimSpace b1 = TrimSpace b2) :
    fetchServerStats (ok200 b1) = fetchServerStats (ok200 b2) := by
  rw [fetchServerStats_ok200, fetchServerStats_ok200, h]

/-- C12.  White space around the body does not change the parse: for every
body `b` and all strings `p`, `s` of spaces, tabs, carriage returns and line
feeds, the status-200 body `p ++ b ++ s` gives the same result as `b`, the
same `ServerStats` or the same error. -/
theorem fetchServerStats_surrounding_space (b p s : List Char)
    (hp : ∀ c ∈ p, isWireSpace c = true) (hs : ∀ c ∈ s, isWireSpace c = true) :
    fetchServerStats (ok200 (p ++ b ++ s)) = fetchServerStats (ok200 b) :=
  fetchServerStats_of_trim_eq
    (trimSpace_surround p b s (fun c hc => isSpace_of_isWireSpace (hp c hc))
      (fun c hc => isSpace_of_isWireSpace (hs c hc)))

/-- Witness of C12: scenario A between a space and a tab before, and a
carriage return and a line feed after. -/
theorem fetchServerStats_surrounding_space_witness :
    fetchServerStats (ok200 (" \t".toList ++ "5,1000,500,1000,500,1000,500".toList
        ++ "\r\n".toList))
      = fetchServerStats (ok200 "5,1000,500,1000,500,1000,500".toList) ∧
    fetchServerStats (ok200 "5,1000,500,1000,500,1000,500".toList)
      = .ok ⟨5, 1000, 500, 1000, 500, 1000, 500⟩ :=
  ⟨fetchServerStats_surrounding_space "5,1000,500,1000,500,1000,500".toList " \t".toList
      "\r\n".toList (by decide) (by decide),
    by decide⟩

/-- C13.  A status-200 body that is empty after trimming is a BadShape error
with one token counted; a well-formed body (seven integer tokens joined by
commas, white space around them allowed) followed by `k ≥ 1` extra commas is a
BadShape error with `7 + k` tokens counted; neither gives a `ServerStats`. -/
theorem fetchServerStats_empty_or_trailing :
    (∀ body : List Char, TrimSpace body = [] →
      fetchServerStats (ok200 body) = .error (.BadShape 1)) ∧
    (∀ (toks : List (List Char)) (p s : List Char) (k : Nat), WellFormedTokens toks →
      (∀ c ∈ p, isSpace c = true) → (∀ c ∈ s, isSpace c = true) → 1 ≤ k →
      fetchServerStats (ok200 (p ++ joinComma toks ++ s ++ List.replicate k ','))
        = .error (.BadShape (7 + k))) := by
  constructor
  · intro body h
    rw [fetchServerStats_ok200, h]
    rfl
  · intro toks p s k hw hp hs hk
    obtain ⟨-, hcount, hnosp, hne⟩ := wellFormed_join hw
    obtain ⟨k1, rfl⟩ : ∃ k1, k = k1 + 1 := ⟨k - 1, by omega⟩
    cases hJ : joinComma toks with
    | nil => exact absurd hJ hne
    | cons a m =>
      have ha : isSpace a = false := hnosp a (by rw [hJ]; exact List.mem_cons_self _ _)
      have hshape : p ++ a :: m ++ s ++ List.replicate (k1 + 1) ','
          = p ++ (a :: (m ++ s ++ List.replicate k1 ',' ++ [','])) ++ [] := by
        simp [List.replicate_succ']
      have htrim : TrimSpace (p ++ a :: m ++ s ++ List.replicate (k1 + 1) ',')
          = a :: (m ++ s ++ List.replicate k1 ',' ++ [',']) := by
        rw [hshape, trimSpace_surround p _ [] hp (by simp)]
        exact trimSpace_ends a ',' _ ha (by decide)
      have hcs : s.count ',' = 0 := by
        rw [List.count_eq_zero]
        intro hmem
        have := hs _ hmem
        revert this
        decide
      have hcm : (a :: m).count ',' = 6 := by rw [← hJ]; exact hcount
      have hlen : (Split (a :: (m ++ s ++ List.replicate k1 ',' ++ [','])) ',').length
          = 7 + (k1 + 1) := by
        rw [length_split]
        have e : a :: (m ++ s ++ List.replicate k1 ',' ++ [','])
            = (a :: m) ++ s ++ List.replicate k1 ',' ++ [','] := by simp
        rw [e]
        simp only [List.count_append, hcm, hcs, List.count_replicate_self, List.count_cons,
          List.count_nil, beq_self_eq_true, if_true]
        omega
      rw [fetchServerStats_ok200, htrim, hlen, if_pos (by omega)]

/-- Witness of C13: scenario A followed by two commas, and a blank body. -/
theorem fetchServerStats_empty_or_trailing_witness :
    fetchServerStats (ok200 " \n".toList) = .error (.BadShape 1) ∧
    fetchServerStats (ok200 ([] ++ joinComma ["5".toList, "1000".toList, "500".toList,
        "1000".toList, "500".toList, "1000".toList, "500".toList] ++ []
        ++ List.replicate 2 ',')) = .error (.BadShape (7 + 2)) :=
  ⟨fetchServerStats_empty_or_trailing.1 " \n".toList (by decide),
    fetchServerStats_empty_or_trailing.2
      ["5".toList, "1000".toList, "500".toList, "1000".toList, "500".toList,
        "1000".toList, "500".toList] [] [] 2
      ⟨by decide, by
        intro t ht
        simp only [List.mem_cons, List.mem_singleton, List.not_mem_nil, or_false] at ht
        rcases ht with rfl | rfl | rfl | rfl | rfl | rfl | rfl
        · exact ⟨5, (atoi_ok_iff _ _).1 (by decide)⟩
        · exact ⟨1000, (atoi_ok_iff _ _).1 (by decide)⟩
        · exact ⟨500, (atoi_ok_iff _ _).1 (by decide)⟩
        · exact ⟨1000, (atoi_ok_iff _ _).1 (by decide)⟩
        · exact ⟨500, (atoi_ok_iff _ _).1 (by decide)⟩
        · exact ⟨1000, (atoi_ok_iff _ _).1 (by decide)⟩
        · exact ⟨500, (atoi_ok_iff _ _).1 (by decide)⟩⟩
      (by simp) (by simp) (by decide)⟩

theorem not_denotesInt_nil (v : Int) : ¬ DenotesInt [] v := by
  intro h
  exact (denotesInt_chars h).1 rfl

/-- C19.  Fetch errors are classified status first, then shape, then number.
A response with a code other than 200 is BadStatus whatever its body; a
status-200 body whose token count is not 7 is BadShape whatever its tokens
(`a,b` is BadShape with 2); a status-200 body with exactly seven tokens one of
which is empty is BadNumber, as is `1,2,3,4,5,6,`, whose seventh token is
empty. -/
theorem fetchServerStats_precedence :
    (∀ (c : Int) (body : Except (List Char) (List Char)), c ≠ 200 →
      fetchServerStats (.ok ⟨c, body⟩) = .error (.BadStatus c)) ∧
    (∀ body : List Char, (Split (TrimSpace body) ',').length ≠ 7 →
      fetchServerStats (ok200 body)
        = .error (.BadShape (Split (TrimSpace body) ',').length)) ∧
    fetchServerStats (ok200 "a,b".toList) = .error (.BadShape 2) ∧
    (∀ body : List Char, (Split (TrimSpace body) ',').length = 7 →
      [] ∈ Split (TrimSpace body) ',' →
      ∃ err : NumError, fetchServerStats (ok200 body) = .error (.BadNumber err)) ∧
    fetchServerStats (ok200 "1,2,3,4,5,6,".toList)
      = .error (.BadNumber ⟨"Atoi".toList, [], .ErrSyntax⟩) := by
  refine ⟨?_, ?_, by decide, ?_, by decide⟩
  · intro c body hc
    simp only [fetchServerStats, ne_eq, hc, not_false_eq_true, if_true]
  · intro body hn
    rw [fetchServerStats_ok200, if_pos hn]
  · intro body h7 hmem
    exact fetchServerStats_of_bad_token body [] h7 hmem not_denotesInt_nil

/-- Witness of C19: status 404 with a body that is not numbers, `a,b`, and
`1,2,3,4,5,6,`. -/
theorem fetchServerStats_precedence_witness :
    fetchServerStats (.ok ⟨404, .ok "a,b".toList⟩) = .error (.BadStatus 404) ∧
    fetchServerStats (ok200 "a,b".toList)
      = .error (.BadShape (Split (TrimSpace "a,b".toList) ',').length) ∧
    ∃ err : NumError,
      fetchServerStats (ok200 "1,2,3,4,5,6,".toList) = .error (.BadNumber err) :=
  ⟨fetchServerStats_precedence.1 404 (.ok "a,b".toList) (by decide),
    fetchServerStats_precedence.2.1 "a,b".toList (by decide),
    fetchServerStats_precedence.2.2.2.1 "1,2,3,4,5,6,".toList (by decide) (by decide)⟩

/-- A trimmed text with six commas and a space in it gives the BadNumber
error: the space lies in one of the seven tokens. -/
theorem fetchServerStats_of_space_inside (body n : List Char) (htrim : TrimSpace body = n)
    (hcount : n.count ',' = 6) (hsp : ' ' ∈ n) :
    ∃ err : NumError, fetchServerStats (ok200 body) = .error (.BadNumber err) := by
  obtain ⟨t, ht, hst⟩ := mem_split ',' n ' ' hsp (by decide)
  refine fetchServerStats_of_bad_token body t ?_ (htrim ▸ ht) ?_
  · rw [htrim, length_split, hcount]
  · intro v hv
    have := ((denotesInt_chars hv).2 ' ' hst).1
    revert this
    decide

/-- A well-formed text cut at one of its commas: both parts are non-empty and
free of white space. -/
theorem wellFormed_cut {toks : List (List Char)} (hw : WellFormedTokens toks)
    {a b : List Char} (hJ : joinComma toks = a ++ ',' :: b) :
    (∃ x a1, a = x :: a1 ∧ isSpace x = false) ∧
      (∃ b1 z, b = b1 ++ [z] ∧ isSpace z = false) ∧ a.count ',' + b.count ',' = 5 := by
  obtain ⟨hsplit, hcount, hnosp, -⟩ := wellFormed_join hw
  have hnil : [] ∉ toks := by
    intro hmem
    obtain ⟨v, hv⟩ := hw.2 [] hmem
    exact not_denotesInt_nil v hv
  rw [hJ] at hsplit hcount hnosp
  refine ⟨?_, ?_, ?_⟩
  · cases a with
    | nil =>
      exfalso
      apply hnil
      rw [← hsplit, List.nil_append, split_cons_sep]
      exact List.mem_cons_self _ _
    | cons x a1 => exact ⟨x, a1, rfl, hnosp x (by simp)⟩
  · rcases List.eq_nil_or_concat b with rfl | ⟨b1, z, rfl⟩
    · exfalso
      apply hnil
      rw [← hsplit, split_append_sep_all]
      simp [Split]
    · exact ⟨b1, z, List.concat_eq_append _ _, hnosp z (by simp)⟩
  · simp only [List.count_append, List.count_cons, beq_self_eq_true, if_true] at hcount
    omega

/-- C20.  White space is tolerated around the whole body only.  In a
well-formed body (seven integer tokens joined by commas, white space around
them allowed) a space put directly before or directly after any one of the six
commas gives the BadNumber error and no `ServerStats`; `1, 2,3,4,5,6,7` fails
on its second token. -/
theorem fetchServerStats_inner_space :
    (∀ (toks : List (List Char)) (p s a b : List Char), WellFormedTokens toks →
      (∀ c ∈ p, isSpace c = true) → (∀ c ∈ s, isSpace c = true) →
      joinComma toks = a ++ ',' :: b →
      (∃ err : NumError,
        fetchServerStats (ok200 (p ++ (a ++ ' ' :: ',' :: b) ++ s))
          = .error (.BadNumber err)) ∧
      (∃ err : NumError,
        fetchServerStats (ok200 (p ++ (a ++ ',' :: ' ' :: b) ++ s))
          = .error (.BadNumber err))) ∧
    fetchServerStats (ok200 "1, 2,3,4,5,6,7".toList)
      = .error (.BadNumber ⟨"Atoi".toList, " 2".toList, .ErrSyntax⟩) := by
  refine ⟨?_, by decide⟩
  intro toks p s a b hw hp hs hJ
  obtain ⟨⟨x, a1, rfl, hx⟩, ⟨b1, z, rfl, hz⟩, hcount⟩ := wellFormed_cut hw hJ
  constructor
  · apply fetchServerStats_of_space_inside _ (x :: a1 ++ ' ' :: ',' :: (b1 ++ [z]))
    · rw [trimSpace_surround p _ s hp hs]
      have e : x :: a1 ++ ' ' :: ',' :: (b1 ++ [z])
          = x :: ((a1 ++ ' ' :: ',' :: b1) ++ [z]) := by simp
      rw [e]
      exact trimSpace_ends x z _ hx hz
    · simp only [List.count_append, List.count_cons, beq_self_eq_true, if_true,
        List.count_nil] at hcount ⊢
      simp only [show ((' ' : Char) == ',') = false by decide] at hcount ⊢
      simp only [Bool.false_eq_true, if_false] at hcount ⊢
      omega
    · simp
  · apply fetchServerStats_of_space_inside _ (x :: a1 ++ ',' :: ' ' :: (b1 ++ [z]))
    · rw [trimSpace_surround p _ s hp hs]
      have e : x :: a1 ++ ',' :: ' ' :: (b1 ++ [z])
          = x :: ((a1 ++ ',' :: ' ' :: b1) ++ [z]) := by simp
      rw [e]
      exact trimSpace_ends x z _ hx hz
    · simp only [List.count_append, List.count_cons, beq_self_eq_true, if_true,
        List.count_nil] at hcount ⊢
      simp only [show ((' ' : Char) == ',') = false by decide] at hcount ⊢
      simp only [Bool.false_eq_true, if_false] at hcount ⊢
      omega
    · simp

/-- Witness of C20: scenario A with a space before, and after, its third
comma. -/
theorem fetchServerStats_inner_space_witness :
    (∃ err : NumError,
      fetchServerStats (ok200 ([] ++ ("5,1000,500".toList
          ++ ' ' :: ',' :: "1000,500,1000,500".toList) ++ []))
        = .error (.BadNumber err)) ∧
    (∃ err : NumError,
      fetchServerStats (ok200 ([] ++ ("5,1000,500".toList
          ++ ',' :: ' ' :: "1000,500,1000,500".toList) ++ []))
        = .error (.BadNumber err)) :=
  fetchServerStats_inner_space.1
    ["5".toList, "1000".toList, "500".toList, "1000".toList, "500".toList,
      "1000".toList, "500".toList] [] [] "5,1000,500".toList "1000,500,1000,500".toList
    ⟨by decide, by
      intro t ht
      simp only [List.mem_cons, List.mem_singleton, List.not_mem_nil, or_false] at ht
      rcases ht with rfl | rfl | rfl | rfl | rfl | rfl | rfl
      · exact ⟨5, (atoi_ok_iff _ _).1 (by decide)⟩
      · exact ⟨1000, (atoi_ok_iff _ _).1 (by decide)⟩
      · exact ⟨500, (atoi_ok_iff _ _).1 (by decide)⟩
      · exact ⟨1000, (atoi_ok_iff _ _).1 (by decide)⟩
      · exact ⟨500, (atoi_ok_iff _ _).1 (by decide)⟩
      · exact ⟨1000, (atoi_ok_iff _ _).1 (by decide)⟩
      · exact ⟨500, (atoi_ok_iff _ _).1 (by decide)⟩⟩
    (by simp) (by simp) (by decide)

end GoServerChecker
